import Mathlib

/-!
Verification development for the Cricket-Auction-Backend repository.

The definitions in this file are a shallow embedding of the JavaScript
source: Mongoose collections become lists of records, instance methods
become functions on those records (returning `Except` where the source
can throw), and the socket/timer side effects become an explicit `Effect`
trace. Monetary amounts are modelled as `Int` (the source stores
non-negative integer amounts in JS numbers); document ids and timestamps
are `Nat`.
-/

namespace CricketAuction

/-! ## Auction rules (src/utils/auctionRules.js)

Constants and the pure bidding-rule functions `getNextBidAmount` and
`canPlaceBid`.  JS `currentBid || BASE_PRICE` is modelled by mapping the
(falsy) value `0` to `BASE_PRICE`; the increment-rule lookup is the same
first-match scan over the three rules, with the `Infinity` upper bound of
the last rule rendered as an unconditional comparison, and the no-match
fallback (`basePrice < 20`) using the highest rule's increment. -/

def BASE_PRICE : Int := 20

def MAX_BID_PER_PLAYER : Int := 2000

def MAX_PLAYERS_PER_TEAM : Nat := 10

def DEFAULT_OWNER_BALANCE : Int := 1000

/-- The body of `getNextBidAmount` after the JS `currentBid ||
BASE_PRICE` defaulting has produced `basePrice`. -/
def nextBidFromBase (basePrice : Int) : Option Int :=
  if basePrice ≥ MAX_BID_PER_PLAYER then
    none
  else if 20 ≤ basePrice ∧ basePrice < 50 then
    some (min (basePrice + 5) MAX_BID_PER_PLAYER)
  else if 50 ≤ basePrice ∧ basePrice < 100 then
    some (min (basePrice + 10) MAX_BID_PER_PLAYER)
  else if 100 ≤ basePrice then
    some (min (basePrice + 15) MAX_BID_PER_PLAYER)
  else
    -- fallback: no rule matched (basePrice below 20); use the highest rule
    some (min (basePrice + 15) MAX_BID_PER_PLAYER)

def getNextBidAmount (currentBid : Int) : Option Int :=
  nextBidFromBase (if currentBid = 0 then BASE_PRICE else currentBid)

/-- Reasons `canPlaceBid` can return `valid: false`; each constructor
corresponds to one of the reason strings built in the source (numeric
parts of the message are carried as constructor arguments). -/
inductive BidReason where
  | notPositiveNumber : BidReason
  | exceedsMaxBid : BidReason
  | maxBidReached : BidReason
  | belowMinimum (minimumRequired current : Int) : BidReason
  | notIncrement (expectedNext : Int) : BidReason
  | insufficientBalance (required available : Int) : BidReason
  | teamFull : BidReason
  | insufficientBalanceOwner : BidReason
deriving DecidableEq, Repr

inductive CanPlaceBidResult where
  | valid : CanPlaceBidResult
  | invalid (reason : BidReason) : CanPlaceBidResult
deriving DecidableEq, Repr

/-- `canPlaceBid(bidAmount, currentBid, ownerBalance, teamPlayerCount,
{currentBidAmount, isOwnerBidding})` from src/utils/auctionRules.js.
The JS `typeof`/`Number.isFinite` checks are vacuous in the `Int` model,
leaving the `bidAmount <= 0` test of validation 1. -/
def canPlaceBid (bidAmount currentBid ownerBalance : Int)
    (teamPlayerCount : Nat) (currentBidAmount : Int) (isOwnerBidding : Bool) :
    CanPlaceBidResult :=
  -- Validation 1: bid must be a positive number
  if bidAmount ≤ 0 then .invalid .notPositiveNumber
  -- Validation 2: max bid per player
  else if bidAmount > MAX_BID_PER_PLAYER then .invalid .exceedsMaxBid
  else
    -- Validation 3: bid must meet the next valid amount
    match getNextBidAmount currentBidAmount with
    | none => .invalid .maxBidReached
    | some minimumRequiredBid =>
      if bidAmount < minimumRequiredBid then
        .invalid (.belowMinimum minimumRequiredBid currentBidAmount)
      -- Validation 4: increment rule check (unreachable after validation 3)
      else if bidAmount ≠ minimumRequiredBid ∧ bidAmount < minimumRequiredBid then
        .invalid (.notIncrement minimumRequiredBid)
      -- Validation 5: owner balance
      else if bidAmount > ownerBalance then
        .invalid (.insufficientBalance bidAmount ownerBalance)
      -- Validation 6: team player cap
      else if teamPlayerCount ≥ MAX_PLAYERS_PER_TEAM then
        .invalid .teamFull
      -- Validation 7: duplicate owner-balance check
      else if isOwnerBidding ∧ bidAmount > ownerBalance then
        .invalid .insufficientBalanceOwner
      else .valid

/-- `getIncrementAmount` from src/utils/auctionRules.js. -/
def getIncrementAmount (currentBid : Int) : Int :=
  match getNextBidAmount currentBid with
  | none => 0
  | some nextBid => nextBid - (if currentBid = 0 then BASE_PRICE else currentBid)

/-- `isValidIncrement` from src/utils/auctionRules.js. -/
def isValidIncrement (bidAmount currentBid : Int) : Bool :=
  match getNextBidAmount currentBid with
  | none => false
  | some expectedNext => bidAmount ≥ expectedNext

/-! ## Errors and HTTP error responses

JavaScript errors thrown by the code: plain `new Error(message)` with an
optional `statusCode` property, bid-validation failures built from
`canPlaceBid`'s reason, MongoDB duplicate-key errors (code 11000) and
mongoose validation errors. -/

/-- The message strings built by `canPlaceBid` (src/utils/auctionRules.js). -/
def bidReasonMessage : BidReason → String
  | .notPositiveNumber => "Bid amount must be a positive number"
  | .exceedsMaxBid => "Maximum bid per player is 2000"
  | .maxBidReached => "Maximum bid for this player has already been reached"
  | .belowMinimum m c =>
      "Bid must be at least " ++ toString m ++ " (current: " ++ toString c ++
      ", increment: " ++ toString (m - c) ++ ")"
  | .notIncrement m => "Bid must follow increment rules. Next valid bid is " ++ toString m
  | .insufficientBalance r a =>
      "Insufficient balance. Required: " ++ toString r ++ ", Available: " ++ toString a
  | .teamFull => "Team has reached maximum player limit of 10"
  | .insufficientBalanceOwner => "Insufficient balance to place this bid"

inductive JsError where
  /-- `new Error(message)` with `error.statusCode = s` (none when no statusCode set). -/
  | err (statusCode : Option Nat) (message : String) : JsError
  /-- `new Error(validation.reason)` with statusCode 400, from placeBid. -/
  | bidInvalid (reason : BidReason) : JsError
  /-- MongoDB duplicate-key error, `error.code === 11000`, carrying the
  violated index's `keyPattern` keys in declaration order. -/
  | mongoDuplicateKey (keyPattern : List String) : JsError
  /-- Mongoose schema-validation error on the named field. -/
  | mongoValidation (field : String) : JsError
deriving DecidableEq, Repr

structure ErrorResponse where
  status : Nat
  message : String
deriving DecidableEq, Repr

instance {ε α : Type} [DecidableEq ε] [DecidableEq α] : DecidableEq (Except ε α)
  | .ok x, .ok y =>
    if h : x = y then .isTrue (congrArg Except.ok h)
    else .isFalse fun hc => h (Except.ok.inj hc)
  | .error x, .error y =>
    if h : x = y then .isTrue (congrArg Except.error h)
    else .isFalse fun hc => h (Except.error.inj hc)
  | .ok _, .error _ => .isFalse fun hc => Except.noConfusion hc
  | .error _, .ok _ => .isFalse fun hc => Except.noConfusion hc

/-- The global error middleware (src/middleware/error.middleware.js):
mongoose validation errors → 400, duplicate key (code 11000) → 409 with a
"<field> already exists" message where the field is
`Object.keys(err.keyPattern)[0]`, the first key of the violated index's
key pattern, everything else → `statusCode || 500`
with the error's own message. -/
def errorHandler : JsError → ErrorResponse
  | .mongoValidation _ => ⟨400, "Validation error"⟩
  | .mongoDuplicateKey keyPattern => ⟨409, keyPattern.headD "undefined" ++ " already exists"⟩
  | .err statusCode message => ⟨statusCode.getD 500, message⟩
  | .bidInvalid reason => ⟨400, bidReasonMessage reason⟩

/-! ## Bid model (src/models/Bid.js)

A Mongoose collection is a list of documents; `save` is an upsert by
`_id` that runs the pre-save hook, the schema validators, and the unique
partial index on `(auctionEventId, playerId, isWinningBid)` filtered to
`isWinningBid: true`. -/

inductive BidStatus where
  | pending | accepted | outbid | winning | rejected
deriving DecidableEq, Repr

structure Bid where
  id : Nat
  auctionEventId : Nat
  playerId : Nat
  teamId : Nat
  bidderId : Nat
  amount : Int
  status : BidStatus := .pending
  isWinningBid : Bool := false
  rejectionReason : Option String := none
  bidTime : Nat := 0
  outbidAt : Option Nat := none
deriving DecidableEq, Repr

/-- Pre-save middleware: a bid marked winning gets status `winning`. -/
def bidPreSave (b : Bid) : Bid :=
  if b.isWinningBid then { b with status := .winning } else b

/-- Schema validation for Bid: amount non-negative (`min: 0`) and
strictly positive (custom validator). -/
def bidValidators (b : Bid) : Bool :=
  decide (0 ≤ b.amount) && decide (0 < b.amount)

/-- The unique partial index from src/models/Bid.js lines 112-119: saving
a winning bid conflicts when another document (different `_id`) for the
same `(auctionEventId, playerId)` already has `isWinningBid: true`. -/
def winningConflict (store : List Bid) (b : Bid) : Bool :=
  b.isWinningBid && store.any (fun c =>
    c.id != b.id && c.auctionEventId == b.auctionEventId &&
    c.playerId == b.playerId && c.isWinningBid)

/-- Mongo `save()` write semantics: replace the document with the same
key if present, append otherwise. -/
def upsertBy {α : Type} (key : α → Nat) (l : List α) (b : α) : List α :=
  if l.any (fun c => key c == key b) then
    l.map (fun c => if key c == key b then b else c)
  else l ++ [b]

/-- Upsert by `_id`. -/
def upsertBid (store : List Bid) (b : Bid) : List Bid :=
  upsertBy Bid.id store b

/-- `document.save()` for a Bid: pre-save hook, validators, then the
write guarded by the unique partial index. -/
def saveBid (store : List Bid) (b : Bid) : Except JsError (List Bid) :=
  if ¬ bidValidators (bidPreSave b) then .error (.mongoValidation "amount")
  else if winningConflict store (bidPreSave b) then
    .error (.mongoDuplicateKey ["auctionEventId", "playerId", "isWinningBid"])
  else .ok (upsertBid store (bidPreSave b))

/-- The `updateMany` inside `markAsWinning`: demote every other winning
bid of the same (event, player) to `outbid`. -/
def demoteOtherWinners (store : List Bid) (b : Bid) (now : Nat) : List Bid :=
  store.map fun c =>
    if c.auctionEventId == b.auctionEventId && c.playerId == b.playerId &&
       c.isWinningBid && c.id != b.id then
      { c with isWinningBid := false, status := .outbid, outbidAt := some now }
    else c

/-- `bidSchema.methods.markAsWinning`: demote prior winners, then mark
this bid winning and save it. -/
def markAsWinning (store : List Bid) (b : Bid) (now : Nat) :
    Except JsError (Bid × List Bid) :=
  let store1 := demoteOtherWinners store b now
  let b' := { b with isWinningBid := true, status := .winning }
  match saveBid store1 b' with
  | .error e => .error e
  | .ok store2 => .ok (bidPreSave b', store2)

/-- `bidSchema.methods.markAsRejected`. -/
def markAsRejected (store : List Bid) (b : Bid) (reason : String) :
    Except JsError (Bid × List Bid) :=
  let b' := { b with status := .rejected, rejectionReason := some reason, isWinningBid := false }
  match saveBid store b' with
  | .error e => .error e
  | .ok store' => .ok (bidPreSave b', store')

/-- `Bid.getWinningBid`: `findOne({auctionEventId, playerId, isWinningBid:
true})` sorted by `bidTime` descending (the latest matching bid). -/
def getWinningBid (store : List Bid) (auctionEventId playerId : Nat) : Option Bid :=
  (store.filter fun b =>
    b.auctionEventId == auctionEventId && b.playerId == playerId && b.isWinningBid).foldl
    (fun acc b =>
      match acc with
      | none => some b
      | some c => if b.bidTime > c.bidTime then some b else some c)
    none

/-- Does `b` match the partial index's filter for the pair `(e, p)`? -/
def isWinningFor (e p : Nat) (b : Bid) : Bool :=
  b.auctionEventId == e && b.playerId == p && b.isWinningBid

def countWinning (store : List Bid) (e p : Nat) : Nat :=
  (store.filter (isWinningFor e p)).length

/-- The §3 invariant: at most one winning bid per (event, player). -/
def atMostOneWinning (store : List Bid) : Prop :=
  ∀ e p, countWinning store e p ≤ 1

/-- Mongo's `_id` uniqueness for the Bid collection. -/
def bidIdsNodup (store : List Bid) : Prop :=
  (store.map Bid.id).Nodup

/-! ## Player model (src/models/Player.js) -/

inductive PlayerStatus where
  | available | sold | unsold | retired
deriving DecidableEq, Repr

inductive Role where
  | batsman | bowler | allRounder | wicketKeeper | wicketKeeperBatsman
deriving DecidableEq, Repr

structure Player where
  id : Nat
  name : String := ""
  role : Role
  basePrice : Int
  currentPrice : Option Int := none
  status : PlayerStatus := .available
  teamId : Option Nat := none
  soldPrice : Option Int := none
deriving DecidableEq, Repr

/-- Pre-save middleware: sold with a soldPrice → currentPrice :=
soldPrice; available → currentPrice := basePrice. -/
def playerPreSave (p : Player) : Player :=
  if p.status = .sold ∧ p.soldPrice ≠ none then { p with currentPrice := p.soldPrice }
  else if p.status = .available then { p with currentPrice := some p.basePrice }
  else p

/-- Player schema validators: non-negative prices; a sold player must
have a team and a soldPrice at least the base price. -/
def playerValidators (p : Player) : Bool :=
  decide (0 ≤ p.basePrice) &&
  (match p.currentPrice with | none => true | some v => decide (0 ≤ v)) &&
  (match p.soldPrice with | none => true | some v => decide (0 ≤ v)) &&
  (if p.status = .sold then
    (match p.teamId with | none => false | some _ => true) &&
    (match p.soldPrice with | none => false | some v => decide (p.basePrice ≤ v))
   else true)

def savePlayer (p : Player) : Except JsError Player :=
  if playerValidators (playerPreSave p) then .ok (playerPreSave p)
  else .error (.mongoValidation "player")

/-- `playerSchema.methods.markAsSold(teamId, soldPrice)`: sets only
`soldPrice` and `currentPrice`; global `status` and `teamId` are left
unchanged (multi-event support), then saves. The unused `teamId`
parameter mirrors the source signature. -/
def Player.markAsSold (p : Player) (teamId : Nat) (soldPrice : Int) :
    Except JsError Player :=
  if soldPrice < p.basePrice then
    .error (.err none "Sold price cannot be less than base price")
  else
    savePlayer { p with soldPrice := some soldPrice, currentPrice := some soldPrice }

/-- `playerSchema.methods.markAsUnsold`. -/
def Player.markAsUnsold (p : Player) : Except JsError Player :=
  savePlayer { p with status := .unsold, teamId := none, soldPrice := none,
                      currentPrice := some p.basePrice }

/-! ## Team model (src/models/Team.js) -/

inductive TeamStatus where
  | active | inactive | suspended
deriving DecidableEq, Repr

structure Team where
  id : Nat
  name : String := ""
  ownerId : Option Nat := none
  budget : Int := 0
  spent : Int := 0
  remainingBudget : Int := 0
  players : List Nat := []
  status : TeamStatus := .active
deriving DecidableEq, Repr

def teamPreSave (t : Team) : Team :=
  { t with remainingBudget := t.budget - t.spent }

def teamValidators (t : Team) : Bool :=
  decide (0 ≤ t.budget) && decide (0 ≤ t.spent) && decide (t.spent ≤ t.budget)

def saveTeam (t : Team) : Except JsError Team :=
  if teamValidators (teamPreSave t) then .ok (teamPreSave t)
  else .error (.mongoValidation "spent")

/-! ## TeamEventBudget model (src/models/TeamEventBudget.js) -/

structure TeamEventBudget where
  teamId : Nat
  auctionEventId : Nat
  budget : Int := 0
  spent : Int := 0
  remainingBudget : Int := 0
deriving DecidableEq, Repr

/-- Pre-save middleware: `remainingBudget = budget - spent`. -/
def tebPreSave (t : TeamEventBudget) : TeamEventBudget :=
  { t with remainingBudget := t.budget - t.spent }

/-- Validators: budget and spent non-negative, spent ≤ budget. -/
def tebValidators (t : TeamEventBudget) : Bool :=
  decide (0 ≤ t.budget) && decide (0 ≤ t.spent) && decide (t.spent ≤ t.budget)

def saveTeamEventBudget (t : TeamEventBudget) : Except JsError TeamEventBudget :=
  if tebValidators (tebPreSave t) then .ok (tebPreSave t)
  else .error (.mongoValidation "spent")

def TeamEventBudget.canAfford (t : TeamEventBudget) (bidAmount : Int) : Bool :=
  decide (bidAmount ≤ t.remainingBudget)

/-- `teamEventBudgetSchema.methods.addPurchase`: throws on insufficient
budget (document untouched); otherwise adds to `spent`, recomputes
`remainingBudget`, and saves. -/
def TeamEventBudget.addPurchase (t : TeamEventBudget) (playerPrice : Int) :
    Except JsError TeamEventBudget :=
  if ¬ t.canAfford playerPrice then
    .error (.err none "Insufficient budget to purchase player in this event")
  else
    saveTeamEventBudget
      { t with spent := t.spent + playerPrice,
               remainingBudget := t.budget - (t.spent + playerPrice) }

def findTeamEventBudget (store : List TeamEventBudget) (teamId eventId : Nat) :
    Option TeamEventBudget :=
  store.find? fun t => t.teamId == teamId && t.auctionEventId == eventId

/-- `TeamEventBudget.getOrCreate(teamId, eventId, defaultBudget)`.  JS
`defaultBudget || 10000` maps the falsy default `0` to 10000. -/
def TeamEventBudget.getOrCreate (store : List TeamEventBudget) (teamId eventId : Nat)
    (defaultBudget : Int) : Except JsError (TeamEventBudget × List TeamEventBudget) :=
  match findTeamEventBudget store teamId eventId with
  | some b => .ok (b, store)
  | none =>
    match saveTeamEventBudget
        { teamId := teamId, auctionEventId := eventId,
          budget := if defaultBudget = 0 then 10000 else defaultBudget,
          spent := 0,
          remainingBudget := if defaultBudget = 0 then 10000 else defaultBudget } with
    | .error e => .error e
    | .ok b => .ok (b, store ++ [b])

/-- Write an updated budget row back to the collection (rows are keyed by
the unique (teamId, auctionEventId) index). -/
def updateTeamEventBudgetStore (store : List TeamEventBudget) (t : TeamEventBudget) :
    List TeamEventBudget :=
  store.map fun c =>
    if c.teamId == t.teamId && c.auctionEventId == t.auctionEventId then t else c

/-! ## AuctionEvent model (src/models/AuctionEvent.js) -/

inductive EventStatus where
  | draft | scheduled | live | paused | completed | cancelled
deriving DecidableEq, Repr

structure EventSettings where
  bidIncrement : Int := 50
  bidTimer : Int := 60
  startingBudget : Int := 10000
  autoMode : Bool := true
deriving DecidableEq, Repr

structure EventStats where
  totalPlayers : Nat := 0
  playersSold : Nat := 0
  playersUnsold : Nat := 0
  totalAmountSpent : Int := 0
deriving DecidableEq, Repr

structure AuctionEvent where
  id : Nat
  name : String := ""
  status : EventStatus := .draft
  players : List Nat := []
  participatingTeams : List Nat := []
  currentPlayerId : Option Nat := none
  currentPlayerStartTime : Option Nat := none
  currentCategory : Role := .batsman
  settings : EventSettings := {}
  stats : EventStats := {}
  createdBy : Nat := 0
  startedBy : Option Nat := none
  startedAt : Option Nat := none
  completedAt : Option Nat := none
  endDate : Option Nat := none
deriving DecidableEq, Repr

/-- Pre-save middleware: recompute `stats.totalPlayers` when the
`players` array was modified relative to the stored document. -/
def eventPreSave (stored : Option AuctionEvent) (e : AuctionEvent) : AuctionEvent :=
  if (match stored with
      | some s => !(s.players == e.players)
      | none => true) then
    { e with stats := { e.stats with totalPlayers := e.players.length } }
  else e

/-- `auctionEventSchema.methods.startAuction`. -/
def AuctionEvent.startAuction (e : AuctionEvent) (userId now : Nat) :
    Except JsError AuctionEvent :=
  if e.status ≠ .draft ∧ e.status ≠ .scheduled then
    .error (.err none "Auction can only be started from draft or scheduled status")
  else if e.players.length = 0 then
    .error (.err none "Cannot start auction without players")
  else
    .ok { e with status := .live, startedBy := some userId, startedAt := some now }

/-- `auctionEventSchema.methods.completeAuction`. -/
def AuctionEvent.completeAuction (e : AuctionEvent) (now : Nat) :
    Except JsError AuctionEvent :=
  if e.status ≠ .live ∧ e.status ≠ .paused then
    .error (.err none "Only live or paused auctions can be completed")
  else
    .ok { e with status := .completed, completedAt := some now,
                 endDate := some (e.endDate.getD now) }

/-- `auctionEventSchema.methods.updatePlayerSold`: bump `stats.playersSold`
and `stats.totalAmountSpent` by the sale price. -/
def AuctionEvent.updatePlayerSold (e : AuctionEvent) (playerPrice : Int) : AuctionEvent :=
  { e with stats :=
      { e.stats with
        playersSold := e.stats.playersSold + 1
        totalAmountSpent := e.stats.totalAmountSpent + playerPrice } }

/-- `auctionEventSchema.methods.updatePlayerUnsold`. -/
def AuctionEvent.updatePlayerUnsold (e : AuctionEvent) : AuctionEvent :=
  { e with stats := { e.stats with playersUnsold := e.stats.playersUnsold + 1 } }

/-! ## Users, the world state, and the effect trace

The world bundles the five persisted collections.  Socket emissions and
timer-manager calls are side effects outside the database; they are
recorded in an `Effect` trace.  A `setTimeout` whose body runs later
(the 2-second delayed start of the next player) is recorded as a
`scheduledStartNextPlayer` effect; its body is modelled separately as
`startScheduledPlayer`. -/

inductive UserRole where
  | admin | teamOwner
deriving DecidableEq, Repr

structure User where
  id : Nat
  teamId : Option Nat := none
deriving DecidableEq, Repr

structure World where
  events : List AuctionEvent := []
  players : List Player := []
  teams : List Team := []
  users : List User := []
  bids : List Bid := []
  teamEventBudgets : List TeamEventBudget := []
deriving DecidableEq, Repr

inductive Effect where
  | bidReceived (eventId bidId playerId teamId : Nat) (amount nextBidAmount : Int)
      (timerReset : Bool) : Effect
  | playerSold (eventId playerId teamId : Nat) (amount : Int) : Effect
  | playerUnsold (eventId playerId : Nat) : Effect
  | teamBalanceUpdate (eventId userId : Nat) (balance : Int) : Effect
  | availablePlayersUpdate (eventId : Nat) : Effect
  | playerUpdate (eventId playerId : Nat) : Effect
  | auctionEnded (eventId : Nat) : Effect
  | timerCleared (eventId : Nat) : Effect
  | timerSet (eventId playerId : Nat) (durationMs : Nat) : Effect
  | scheduledStartNextPlayer (eventId playerId : Nat) (delayMs : Nat) : Effect
deriving DecidableEq, Repr

def findEvent (w : World) (id : Nat) : Option AuctionEvent :=
  w.events.find? fun e => e.id == id

def findPlayer (w : World) (id : Nat) : Option Player :=
  w.players.find? fun p => p.id == id

def findTeam (w : World) (id : Nat) : Option Team :=
  w.teams.find? fun t => t.id == id

def findUser (w : World) (id : Nat) : Option User :=
  w.users.find? fun u => u.id == id

/-- Persist an event document (upsert by id, running the pre-save hook
against the stored version). -/
def World.saveEventDoc (w : World) (e : AuctionEvent) : World :=
  { w with events := upsertBy AuctionEvent.id w.events (eventPreSave (findEvent w e.id) e) }

def World.savePlayerDoc (w : World) (p : Player) : World :=
  { w with players := upsertBy Player.id w.players p }

def World.saveTeamDoc (w : World) (t : Team) : World :=
  { w with teams := upsertBy Team.id w.teams t }

/-- Player ids with a winning bid in the event (the
`Bid.find({auctionEventId, isWinningBid: true}).distinct('playerId')`
query that derives the per-event sold set). -/
def soldPlayerIds (w : World) (eventId : Nat) : List Nat :=
  (w.bids.filter fun b => b.auctionEventId == eventId && b.isWinningBid).map Bid.playerId

/-! ## Category rotation (src/utils/scheduledStart.js) -/

/-- `getNextCategory` over the sequence batsman → bowler → all-rounder,
wrapping to batsman (also for roles outside the sequence, `indexOf ===
-1`). -/
def getNextCategory : Role → Role
  | .batsman => .bowler
  | .bowler => .allRounder
  | _ => .batsman

def insertSortedByBasePrice (p : Player) : List Player → List Player
  | [] => [p]
  | q :: qs =>
    if p.basePrice ≤ q.basePrice then p :: q :: qs
    else q :: insertSortedByBasePrice p qs

/-- `.sort({ basePrice: 1 })`. -/
def sortByBasePrice (l : List Player) : List Player :=
  l.foldr insertSortedByBasePrice []

/-- The candidate pool of `autoMoveToNextPlayer`: players of the event in
the given category, base-price ascending, that do not yet have a winning
bid in this event (eligibility is derived from the Bid collection, not
from the player's global status). -/
def availableInCategory (w : World) (ev : AuctionEvent) (cat : Role) : List Player :=
  let soldIds := soldPlayerIds w ev.id
  (sortByBasePrice (w.players.filter fun p => ev.players.contains p.id && p.role == cat)).filter
    fun p => !soldIds.contains p.id

/-- `autoMoveToNextPlayer` (src/utils/scheduledStart.js lines 18-123):
pick the cheapest not-yet-sold player of the current category; if the
category is exhausted, advance the category (returning early when a full
wrap-around finds no player left anywhere) and retry once.  The actual
start of the chosen player happens in a 2-second `setTimeout`, recorded
here as a `scheduledStartNextPlayer` effect. -/
def autoMoveToNextPlayer (w : World) (eventId : Nat) : World × List Effect :=
  match findEvent w eventId with
  | none => (w, [])
  | some ev =>
    if ev.status ≠ .live then (w, [])
    else
      match availableInCategory w ev ev.currentCategory with
      | p :: _ => (w, [.scheduledStartNextPlayer eventId p.id 2000])
      | [] =>
        if getNextCategory ev.currentCategory = .batsman ∧
            ev.currentCategory = .allRounder ∧
            (w.players.filter fun p =>
              ev.players.contains p.id && !(soldPlayerIds w eventId).contains p.id) = [] then
          (w, [])
        else
          match availableInCategory
              (w.saveEventDoc { ev with currentCategory := getNextCategory ev.currentCategory })
              { ev with currentCategory := getNextCategory ev.currentCategory }
              (getNextCategory ev.currentCategory) with
          | p :: _ =>
            (w.saveEventDoc { ev with currentCategory := getNextCategory ev.currentCategory },
             [.scheduledStartNextPlayer eventId p.id 2000])
          | [] =>
            (w.saveEventDoc { ev with currentCategory := getNextCategory ev.currentCategory },
             [])

/-- Body of the 2-second `setTimeout` inside `autoMoveToNextPlayer`:
re-check the event is still live, set the current player, and arm the
20-second timer. -/
def startScheduledPlayer (w : World) (eventId nextPlayerId now : Nat) :
    World × List Effect :=
  match findEvent w eventId with
  | none => (w, [])
  | some ev =>
    if ev.status ≠ .live then (w, [])
    else
      let w1 := w.saveEventDoc
        { ev with currentPlayerId := some nextPlayerId,
                  currentPlayerStartTime := some now }
      (w1, [.playerUpdate eventId nextPlayerId, .timerSet eventId nextPlayerId 20000])

/-! ## Timer expiry callback (src/controllers/event.controller.js,
`createTimerCallback`, lines 331-499)

The callback body is wrapped in try/catch; a thrown error aborts the
remaining steps but keeps the writes already performed, so every
`Except.error` case below returns the world accumulated so far. -/

/-- The winning-bid branch of the timer callback (auto mode, team found):
mark the player sold, debit the event-wise budget, add the player to the
team roster, update event stats, clear the current player, emit the sold
and balance events, then either complete the auction (all players have
winning bids) or move to the next player. -/
def timerCallbackSoldBranch (w : World) (currentEvent : AuctionEvent) (player : Player)
    (team : Team) (wb : Bid) (eventIdParam playerId now : Nat) : World × List Effect :=
  match player.markAsSold team.id wb.amount with
  | .error _ => (w, [])
  | .ok player' =>
    let w1 := w.savePlayerDoc player'
    let eventBudget :=
      if currentEvent.settings.startingBudget = 0 then 10000
      else currentEvent.settings.startingBudget
    match TeamEventBudget.getOrCreate w1.teamEventBudgets team.id eventIdParam eventBudget with
    | .error _ => (w1, [])
    | .ok (teamEventBudget, tebStore) =>
      let w2 := { w1 with teamEventBudgets := tebStore }
      match teamEventBudget.addPurchase wb.amount with
      | .error _ => (w2, [])
      | .ok teb' =>
        let w3 := { w2 with
          teamEventBudgets := updateTeamEventBudgetStore w2.teamEventBudgets teb' }
        match (if !team.players.contains playerId then
                 saveTeam { team with players := team.players ++ [playerId] }
               else .ok team) with
        | .error _ => (w3, [])
        | .ok team' =>
          -- the roster write happens only when the player was pushed
          let w4 := if !team.players.contains playerId then w3.saveTeamDoc team' else w3
          let w5 := w4.saveEventDoc (currentEvent.updatePlayerSold wb.amount)
          let ev2 := { currentEvent.updatePlayerSold wb.amount with
                       currentPlayerId := none, currentPlayerStartTime := none }
          let w6 := w5.saveEventDoc ev2
          let soldEffects :=
            [Effect.playerSold eventIdParam playerId team.id wb.amount] ++
            (match findTeamEventBudget w6.teamEventBudgets team.id eventIdParam,
                   team.ownerId with
             | some updatedBudget, some ownerId =>
               [Effect.teamBalanceUpdate eventIdParam ownerId
                  (max 0 updatedBudget.remainingBudget)]
             | _, _ => []) ++
            [Effect.availablePlayersUpdate eventIdParam]
          match findEvent w6 eventIdParam with
          | none => (w6, soldEffects)
          | some updatedEvent =>
            let soldIds := soldPlayerIds w6 eventIdParam
            let allSold :=
              decide (updatedEvent.players.length > 0) &&
              updatedEvent.players.all (fun q => soldIds.contains q)
            if allSold then
              match updatedEvent.completeAuction now with
              | .error _ => (w6, soldEffects)
              | .ok evC =>
                (w6.saveEventDoc evC, soldEffects ++ [.auctionEnded eventIdParam])
            else
              let r := autoMoveToNextPlayer w6 eventIdParam
              (r.1, soldEffects ++ r.2)

/-- The timer-expiry callback returned by `createTimerCallback(eventId)`.
Freshness guards: the event must still exist, the expired player must
still be the event's current player, the player must exist and still
have global status `available`.  In auto mode a winning bid is finalized
as a sale and a no-bid expiry re-queues the player; in manual mode only
the no-bid case acts, a bid-present expiry does nothing. -/
def timerCallback (w : World) (eventIdParam playerId now : Nat) : World × List Effect :=
  match findEvent w eventIdParam with
  | none => (w, [])
  | some currentEvent =>
    if currentEvent.currentPlayerId ≠ some playerId then (w, [])
    else
      let winningBid := getWinningBid w.bids eventIdParam playerId
      match findPlayer w playerId with
      | none => (w, [])
      | some player =>
        if player.status ≠ .available then (w, [])
        else if currentEvent.settings.autoMode then
          match winningBid with
          | some wb =>
            match findTeam w wb.teamId with
            | none => (w, [])
            | some team =>
              timerCallbackSoldBranch w currentEvent player team wb eventIdParam playerId now
          | none =>
            let w1 := w.saveEventDoc
              { currentEvent with currentPlayerId := none, currentPlayerStartTime := none }
            autoMoveToNextPlayer w1 eventIdParam
        else
          match winningBid with
          | none =>
            let w1 := w.saveEventDoc
              { currentEvent with currentPlayerId := none, currentPlayerStartTime := none }
            autoMoveToNextPlayer w1 eventIdParam
          | some _ => (w, [])

/-! ## placeBid (src/controllers/bid.controller.js, lines 218-400)

`placeBid` is an HTTP handler; its `await` points are suspension points,
so the bid-store write sequence after validation is isolated in
`placeBidWrite` (demote the observed winner, save the new bid, mark it
winning).  Under a race, a second session runs `placeBidWrite` against a
store that changed after its reads; the unique partial index then makes
`saveBid` fail with a duplicate-key error, which `placeBid` does not
catch (it reaches the generic error middleware unchanged). -/

def placeBidWrite (bids : List Bid) (currentWinningBid : Option Bid) (bid : Bid)
    (now : Nat) : Except JsError (Bid × List Bid) :=
  let step1 : Except JsError (List Bid) :=
    match currentWinningBid with
    | some prev =>
      match markAsRejected bids prev "Outbid by higher bid" with
      | .error e => .error e
      | .ok (_, bids1) => .ok bids1
    | none => .ok bids
  match step1 with
  | .error e => .error e
  | .ok bids1 =>
    match saveBid bids1 bid with
    | .error e => .error e
    | .ok bids2 => markAsWinning bids2 bid now

def placeBid (w : World) (userId : Nat) (userRole : UserRole) (eventId playerId : Nat)
    (amount : Int) (newBidId now : Nat) : Except JsError (World × List Effect) :=
  if userRole ≠ .teamOwner then
    .error (.err (some 403) "Only team owners can place bids")
  -- `if (!eventId || !playerId || !amount)`: JS falsiness check
  else if eventId = 0 ∨ playerId = 0 ∨ amount = 0 then
    .error (.err (some 400) "Event ID, Player ID, and amount are required")
  else match findEvent w eventId with
  | none => .error (.err (some 404) "Auction event not found")
  | some event =>
    if event.status ≠ .live then .error (.err (some 400) "Auction is not live")
    else if event.currentPlayerId ≠ some playerId then
      .error (.err (some 400) "This player is not currently on auction")
    else match findPlayer w playerId with
    | none => .error (.err (some 404) "Player not found")
    | some player =>
      match findUser w userId with
      | none => .error (.err (some 404) "User not found")
      | some user =>
        match user.teamId with
        | none => .error (.err (some 400) "User does not have a team assigned")
        | some teamId =>
          match findTeam w teamId with
          | none => .error (.err (some 404) "Team not found")
          | some team =>
            let eventBudget :=
              if event.settings.startingBudget = 0 then 10000
              else event.settings.startingBudget
            match TeamEventBudget.getOrCreate w.teamEventBudgets team.id eventId
                eventBudget with
            | .error e => .error e
            | .ok (teamEventBudget, tebStore) =>
              let w1 := { w with teamEventBudgets := tebStore }
              let currentWinningBid := getWinningBid w1.bids eventId playerId
              let currentBidAmount :=
                match currentWinningBid with
                | some b => b.amount
                | none => player.basePrice
              match canPlaceBid amount currentBidAmount teamEventBudget.remainingBudget
                  team.players.length currentBidAmount true with
              | .invalid reason => .error (.bidInvalid reason)
              | .valid =>
                match placeBidWrite w1.bids currentWinningBid
                    { id := newBidId, auctionEventId := eventId, playerId := playerId,
                      teamId := team.id, bidderId := userId, amount := amount,
                      status := .accepted, isWinningBid := true, rejectionReason := none,
                      bidTime := now, outbidAt := none } now with
                | .error e => .error e
                | .ok (bid, bids2) =>
                  let w2 := { w1 with bids := bids2 }
                  let bidIncrement :=
                    if event.settings.bidIncrement = 0 then 50
                    else event.settings.bidIncrement
                  let nextBidAmount := amount + bidIncrement
                  let w3 := w2.saveEventDoc
                    { event with currentPlayerStartTime := some now }
                  let balanceEffect :=
                    match findTeamEventBudget w3.teamEventBudgets team.id eventId with
                    | some updatedEventBudget =>
                      [Effect.teamBalanceUpdate eventId userId
                         (max 0 updatedEventBudget.remainingBudget)]
                    | none => []
                  .ok (w3,
                    [Effect.timerCleared eventId,
                     Effect.timerSet eventId playerId 20000,
                     Effect.bidReceived eventId bid.id playerId team.id amount
                       nextBidAmount true] ++ balanceEffect)

/-! ## End-of-auction summary query (src/socket/socketServer.js,
`emitAuctionEnded`, lines 427-431) -/

/-- The `soldPlayers` query of `emitAuctionEnded`: players of the event
whose global `status` is `'sold'`. -/
def auctionEndedSoldPlayers (w : World) (ev : AuctionEvent) : List Player :=
  w.players.filter fun p => ev.players.contains p.id && p.status == PlayerStatus.sold

/-- Iterated application of `getNextBidAmount` (`none` once the cap is
passed mid-iteration). -/
def iterateNextBid : Nat → Int → Option Int
  | 0, x => some x
  | n + 1, x =>
    match getNextBidAmount x with
    | none => none
    | some y => iterateNextBid n y

/-!
Theorems: everything below is proof: general lemmas about the definitions above,
followed by one theorem per claim of the specification review (with
witnesses and counterexamples where required).
-/

lemma canPlaceBid_valid_iff (bidAmount currentTop balance : Int) (teamCount : Nat) :
    canPlaceBid bidAmount currentTop balance teamCount currentTop true = .valid ↔
      0 < bidAmount ∧ bidAmount ≤ 2000 ∧
      ∃ m, getNextBidAmount currentTop = some m ∧ m ≤ bidAmount ∧
        bidAmount ≤ balance ∧ teamCount < 10 := by
  unfold canPlaceBid MAX_BID_PER_PLAYER MAX_PLAYERS_PER_TEAM
  rcases h : getNextBidAmount currentTop with _ | m <;> simp only [h] <;>
    split_ifs <;> simp_all <;> omega

lemma getNextBidAmount_tier_low (x : Int) (h1 : 20 ≤ x) (h2 : x < 50) :
    getNextBidAmount x = some (x + 5) := by
  unfold getNextBidAmount nextBidFromBase MAX_BID_PER_PLAYER BASE_PRICE
  rw [if_neg (by omega : ¬ x = 0), if_neg (by omega : ¬ x ≥ 2000),
    if_pos (⟨h1, h2⟩ : 20 ≤ x ∧ x < 50), min_eq_left (by omega)]

lemma getNextBidAmount_tier_mid (x : Int) (h1 : 50 ≤ x) (h2 : x < 100) :
    getNextBidAmount x = some (x + 10) := by
  unfold getNextBidAmount nextBidFromBase MAX_BID_PER_PLAYER BASE_PRICE
  rw [if_neg (by omega : ¬ x = 0), if_neg (by omega : ¬ x ≥ 2000),
    if_neg (by omega : ¬ (20 ≤ x ∧ x < 50)), if_pos (⟨h1, h2⟩ : 50 ≤ x ∧ x < 100),
    min_eq_left (by omega)]

lemma getNextBidAmount_tier_high (x : Int) (h1 : 100 ≤ x) (h2 : x < 2000) :
    getNextBidAmount x = some (min (x + 15) 2000) := by
  unfold getNextBidAmount nextBidFromBase MAX_BID_PER_PLAYER BASE_PRICE
  rw [if_neg (by omega : ¬ x = 0), if_neg (by omega : ¬ x ≥ 2000),
    if_neg (by omega : ¬ (20 ≤ x ∧ x < 50)), if_neg (by omega : ¬ (50 ≤ x ∧ x < 100)),
    if_pos (by omega : 100 ≤ x)]

/-- C7: bid validation enforces the tiered increment table: a bid is
valid iff it is positive, at most the 2000 cap, at least
`getNextBidAmount` of the current top (tiers +5 on [20,50), +10 on
[50,100), +15 capped at 2000 from 100 up), within the remaining budget,
and the team is below the 10-player cap; with base price 20 a bid of 20
is rejected (minimum 25), 25 is accepted, and the next valid amount
becomes 30. -/
theorem canPlaceBid_enforces_increment_table :
    (∀ (bidAmount currentTop balance : Int) (teamCount : Nat),
      canPlaceBid bidAmount currentTop balance teamCount currentTop true = .valid ↔
        0 < bidAmount ∧ bidAmount ≤ 2000 ∧
        ∃ m, getNextBidAmount currentTop = some m ∧ m ≤ bidAmount ∧
          bidAmount ≤ balance ∧ teamCount < 10) ∧
    (∀ x : Int, 20 ≤ x → x < 50 → getNextBidAmount x = some (x + 5)) ∧
    (∀ x : Int, 50 ≤ x → x < 100 → getNextBidAmount x = some (x + 10)) ∧
    (∀ x : Int, 100 ≤ x → x < 2000 → getNextBidAmount x = some (min (x + 15) 2000)) ∧
    canPlaceBid 20 20 1000 0 20 true = .invalid (.belowMinimum 25 20) ∧
    canPlaceBid 25 20 1000 0 20 true = .valid ∧
    getNextBidAmount 25 = some 30 :=
  ⟨canPlaceBid_valid_iff, getNextBidAmount_tier_low, getNextBidAmount_tier_mid,
   getNextBidAmount_tier_high, by decide, by decide, by decide⟩

/-- Witness for C7 at concrete inputs. -/
theorem canPlaceBid_enforces_increment_table_witness :
    (canPlaceBid 25 20 1000 0 20 true = .valid ↔
      (0 : Int) < 25 ∧ (25 : Int) ≤ 2000 ∧
      ∃ m, getNextBidAmount 20 = some m ∧ m ≤ 25 ∧
        (25 : Int) ≤ 1000 ∧ (0 : Nat) < 10) ∧
    getNextBidAmount 20 = some (20 + 5) ∧
    getNextBidAmount 50 = some (50 + 10) ∧
    getNextBidAmount 100 = some (min (100 + 15) 2000) :=
  ⟨canPlaceBid_enforces_increment_table.1 25 20 1000 0,
   canPlaceBid_enforces_increment_table.2.1 20 (by decide) (by decide),
   canPlaceBid_enforces_increment_table.2.2.1 50 (by decide) (by decide),
   canPlaceBid_enforces_increment_table.2.2.2.1 100 (by decide) (by decide)⟩

lemma getNextBidAmount_step (x : Int) (h : x < 2000) :
    ∃ y, getNextBidAmount x = some y ∧ x < y ∧ y ≤ 2000 := by
  unfold getNextBidAmount nextBidFromBase MAX_BID_PER_PLAYER BASE_PRICE
  split_ifs <;>
    first
      | (exfalso; omega)
      | (refine ⟨_, rfl, ?_, ?_⟩ <;> (rw [min_def]; split_ifs <;> omega))

lemma getNextBidAmount_reaches_cap :
    ∀ (k : Nat) (x : Int), x < 2000 → (2000 - x).toNat ≤ k →
      ∃ n, iterateNextBid n x = some 2000 := by
  intro k
  induction k with
  | zero => intro x hx hk; omega
  | succ k ih =>
    intro x hx hk
    obtain ⟨y, hy, hxy, hy2⟩ := getNextBidAmount_step x hx
    by_cases hcap : y = 2000
    · exact ⟨1, by simp [iterateNextBid, hy, hcap]⟩
    · obtain ⟨n, hn⟩ := ih y (by omega) (by omega)
      exact ⟨n + 1, by simp [iterateNextBid, hy, hn]⟩

/-- C8: below the 2000 cap, `getNextBidAmount` returns a strictly larger
amount bounded by the cap; iterating it reaches the cap, and at (or
beyond) the cap it returns `null`. -/
theorem getNextBidAmount_progress :
    (∀ x : Int, x < 2000 → ∃ y, getNextBidAmount x = some y ∧ x < y ∧ y ≤ 2000) ∧
    (∀ x : Int, x < 2000 → ∃ n, iterateNextBid n x = some 2000) ∧
    (∀ z : Int, 2000 ≤ z → getNextBidAmount z = none) := by
  refine ⟨getNextBidAmount_step, ?_, ?_⟩
  · intro x hx
    exact getNextBidAmount_reaches_cap (2000 - x).toNat x hx le_rfl
  · intro z hz
    unfold getNextBidAmount nextBidFromBase MAX_BID_PER_PLAYER BASE_PRICE
    split_ifs <;> first | rfl | (exfalso; omega)

/-- Witness for C8 at the base price 20. -/
theorem getNextBidAmount_progress_witness :
    (∃ y, getNextBidAmount 20 = some y ∧ 20 < y ∧ y ≤ 2000) ∧
    (∃ n, iterateNextBid n 20 = some 2000) ∧
    getNextBidAmount 2000 = none :=
  ⟨getNextBidAmount_progress.1 20 (by decide),
   getNextBidAmount_progress.2.1 20 (by decide),
   getNextBidAmount_progress.2.2 2000 (by decide)⟩

lemma saveTeamEventBudget_ok_elim (t t' : TeamEventBudget)
    (h : saveTeamEventBudget t = .ok t') :
    t' = tebPreSave t ∧ tebValidators (tebPreSave t) = true := by
  unfold saveTeamEventBudget at h
  by_cases hv : tebValidators (tebPreSave t) = true
  · rw [if_pos hv] at h
    exact ⟨(Except.ok.inj h).symm, hv⟩
  · rw [if_neg hv] at h
    exact Except.noConfusion h

lemma saveTeamEventBudget_ok_inv (t t' : TeamEventBudget)
    (h : saveTeamEventBudget t = .ok t') :
    t'.remainingBudget = t'.budget - t'.spent ∧ t'.spent ≤ t'.budget := by
  obtain ⟨rfl, hv⟩ := saveTeamEventBudget_ok_elim t _ h
  simp only [tebValidators, tebPreSave, Bool.and_eq_true, decide_eq_true_eq] at hv
  exact ⟨rfl, hv.2⟩

/-- C6: every successful TeamEventBudget write (direct save, getOrCreate,
addPurchase) re-establishes `remainingBudget = budget - spent` with
`spent ≤ budget`; `addPurchase` debits by exactly the purchase price, and
fails with the insufficient-budget error — leaving the row unwritten —
whenever the remaining budget is below the price. -/
theorem teamEventBudget_invariant :
    (∀ t t', saveTeamEventBudget t = .ok t' →
      t'.remainingBudget = t'.budget - t'.spent ∧ t'.spent ≤ t'.budget) ∧
    (∀ t price t', TeamEventBudget.addPurchase t price = .ok t' →
      t'.remainingBudget = t'.budget - t'.spent ∧ t'.spent ≤ t'.budget ∧
      t'.spent = t.spent + price ∧ t'.budget = t.budget) ∧
    (∀ t price, t.remainingBudget < price →
      TeamEventBudget.addPurchase t price =
        .error (.err none "Insufficient budget to purchase player in this event")) ∧
    (∀ store teamId eventId d b store',
      TeamEventBudget.getOrCreate store teamId eventId d = .ok (b, store') →
      (∀ r ∈ store, r.remainingBudget = r.budget - r.spent ∧ r.spent ≤ r.budget) →
      (b.remainingBudget = b.budget - b.spent ∧ b.spent ≤ b.budget) ∧
      ∀ r ∈ store', r.remainingBudget = r.budget - r.spent ∧ r.spent ≤ r.budget) := by
  refine ⟨saveTeamEventBudget_ok_inv, ?_, ?_, ?_⟩
  · intro t price t' h
    unfold TeamEventBudget.addPurchase at h
    split_ifs at h with hc
    have hinv := saveTeamEventBudget_ok_inv _ _ h
    obtain ⟨rfl, -⟩ := saveTeamEventBudget_ok_elim _ _ h
    exact ⟨hinv.1, hinv.2, rfl, rfl⟩
  · intro t price hlt
    unfold TeamEventBudget.addPurchase TeamEventBudget.canAfford
    rw [if_pos]
    simp only [decide_eq_true_eq]
    omega
  · intro store teamId eventId d b store' h hstore
    unfold TeamEventBudget.getOrCreate at h
    rcases hf : findTeamEventBudget store teamId eventId with _ | found <;> rw [hf] at h
    · rcases hs : saveTeamEventBudget
          { teamId := teamId, auctionEventId := eventId,
            budget := if d = 0 then 10000 else d, spent := 0,
            remainingBudget := if d = 0 then 10000 else d } with e | saved <;> rw [hs] at h
      · exact Except.noConfusion h
      · have hbs : b = saved ∧ store' = store ++ [saved] := by
          have := Except.ok.inj h
          exact ⟨congrArg Prod.fst this.symm, congrArg Prod.snd this.symm⟩
        obtain ⟨rfl, rfl⟩ := hbs
        have hinv := saveTeamEventBudget_ok_inv _ _ hs
        refine ⟨hinv, ?_⟩
        intro r hr
        rcases List.mem_append.mp hr with hr | hr
        · exact hstore r hr
        · rcases List.mem_singleton.mp hr with rfl
          exact hinv
    · have hbs : b = found ∧ store' = store := by
        have := Except.ok.inj h
        exact ⟨congrArg Prod.fst this.symm, congrArg Prod.snd this.symm⟩
      obtain ⟨rfl, rfl⟩ := hbs
      exact ⟨hstore b (List.mem_of_find?_eq_some hf), hstore⟩

/-- Witness for C6 at concrete budgets. -/
theorem teamEventBudget_invariant_witness :
    (({ teamId := 1, auctionEventId := 2, budget := 100, spent := 40,
        remainingBudget := 60 } : TeamEventBudget).remainingBudget = 100 - 40 ∧
      (40 : Int) ≤ 100) ∧
    ((100 : Int) - 40 < 70) ∧
    TeamEventBudget.addPurchase
      { teamId := 1, auctionEventId := 2, budget := 100, spent := 40,
        remainingBudget := 60 } 70 =
      .error (.err none "Insufficient budget to purchase player in this event") := by
  refine ⟨?_, by decide, ?_⟩
  · have := saveTeamEventBudget_ok_inv
      { teamId := 1, auctionEventId := 2, budget := 100, spent := 40, remainingBudget := 60 }
      { teamId := 1, auctionEventId := 2, budget := 100, spent := 40, remainingBudget := 60 }
      (by decide)
    simpa using this
  · exact teamEventBudget_invariant.2.2.1
      { teamId := 1, auctionEventId := 2, budget := 100, spent := 40, remainingBudget := 60 }
      70 (by decide)

/-- C10: `Player.markAsSold` mutates only `soldPrice` and `currentPrice`;
global `status` and `teamId` (and id, name, role, basePrice) are
unchanged, so a player sold through this path keeps status `available`
and is never selected by the `emitAuctionEnded` sold-players query, which
filters on global status `'sold'`. -/
lemma playerPreSave_fields (p : Player) :
    (playerPreSave p).status = p.status ∧ (playerPreSave p).teamId = p.teamId ∧
    (playerPreSave p).id = p.id ∧ (playerPreSave p).name = p.name ∧
    (playerPreSave p).role = p.role ∧ (playerPreSave p).basePrice = p.basePrice ∧
    (playerPreSave p).soldPrice = p.soldPrice := by
  unfold playerPreSave
  split_ifs <;> simp

lemma playerPreSave_available (q : Player) (h : q.status = .available) :
    playerPreSave q = { q with currentPrice := some q.basePrice } := by
  unfold playerPreSave
  rw [if_neg (by simp [h]), if_pos h]

theorem markAsSold_frame (p : Player) (tid : Nat) (price : Int) (p' : Player)
    (h : p.markAsSold tid price = .ok p') :
    p'.status = p.status ∧ p'.teamId = p.teamId ∧ p'.id = p.id ∧
    p'.name = p.name ∧ p'.role = p.role ∧ p'.basePrice = p.basePrice ∧
    p'.soldPrice = some price ∧
    (p.status = .available →
      p'.status = .available ∧ p'.currentPrice = some p.basePrice ∧
      ∀ w ev, p' ∉ auctionEndedSoldPlayers w ev) := by
  unfold Player.markAsSold at h
  by_cases h1 : price < p.basePrice
  · rw [if_pos h1] at h
    exact Except.noConfusion h
  · rw [if_neg h1] at h
    unfold savePlayer at h
    by_cases h2 : playerValidators (playerPreSave
        { p with soldPrice := some price, currentPrice := some price }) = true
    · rw [if_pos h2] at h
      obtain rfl : p' = playerPreSave
          { p with soldPrice := some price, currentPrice := some price } :=
        (Except.ok.inj h).symm
      obtain ⟨hs, ht, hid, hn, hr, hb, hsp⟩ := playerPreSave_fields
        { p with soldPrice := some price, currentPrice := some price }
      refine ⟨hs, ht, hid, hn, hr, hb, hsp, ?_⟩
      intro hav
      have hq : ({ p with soldPrice := some price, currentPrice := some price } :
          Player).status = .available := hav
      rw [playerPreSave_available _ hq]
      refine ⟨hav, rfl, ?_⟩
      intro w ev hmem
      simp [auctionEndedSoldPlayers, List.mem_filter, hav] at hmem
    · rw [if_neg h2] at h
      exact Except.noConfusion h

/-- Witness for C10: a concrete available player sold at 25. -/
theorem markAsSold_frame_witness :
    Player.markAsSold
      { id := 7, role := .batsman, basePrice := 20, status := .available } 3 25 =
      .ok { id := 7, role := .batsman, basePrice := 20, status := .available,
            soldPrice := some 25, currentPrice := some 20 } ∧
    ({ id := 7, role := .batsman, basePrice := 20, status := .available,
       soldPrice := some 25, currentPrice := some 20 } : Player).status = .available := by
  have h : Player.markAsSold
      { id := 7, role := .batsman, basePrice := 20, status := .available } 3 25 =
      .ok { id := 7, role := .batsman, basePrice := 20, status := .available,
            soldPrice := some 25, currentPrice := some 20 } := by decide
  have := markAsSold_frame _ 3 25 _ h
  exact ⟨h, this.1⟩

/-- C9: the timer-expiry callback's freshness guard: when the event no
longer exists, or the expired player is no longer the event's current
player, the callback performs no state change and emits nothing. -/
theorem timerCallback_freshness_guard (w : World) (eventId playerId now : Nat)
    (h : findEvent w eventId = none ∨
      ∃ ev, findEvent w eventId = some ev ∧ ev.currentPlayerId ≠ some playerId) :
    timerCallback w eventId playerId now = (w, []) := by
  unfold timerCallback
  rcases h with h | ⟨ev, hev, hne⟩
  · rw [h]
  · rw [hev]
    simp only [if_pos hne]

/-- A world whose event 1 has current player 3, used to exercise the
freshness guard with a stale expiry for player 2. -/
def staleTimerWorld : World :=
  { events := [{ id := 1, status := .live, players := [2, 3],
                 currentPlayerId := some 3, currentPlayerStartTime := some 50 }],
    players := [{ id := 2, role := .batsman, basePrice := 20 },
                { id := 3, role := .bowler, basePrice := 30 }] }

/-- Witness for C9: a stale expiry for player 2 while player 3 is current. -/
theorem timerCallback_freshness_guard_witness :
    timerCallback staleTimerWorld 1 2 100 = (staleTimerWorld, []) :=
  timerCallback_freshness_guard staleTimerWorld 1 2 100
    (Or.inr ⟨{ id := 1, status := .live, players := [2, 3],
               currentPlayerId := some 3, currentPlayerStartTime := some 50 },
      by decide, by decide⟩)

/-- A manual-mode (autoMode off) world with a live event, current player
2, and a winning bid of 25 on that player. -/
def manualModeWorld : World :=
  { events := [{ id := 1, status := .live, players := [2],
                 currentPlayerId := some 2, currentPlayerStartTime := some 50,
                 settings := { autoMode := false } }],
    players := [{ id := 2, role := .batsman, basePrice := 20, status := .available }],
    teams := [{ id := 3, ownerId := some 4, budget := 1000, spent := 0,
                remainingBudget := 1000 }],
    users := [{ id := 4, teamId := some 3 }],
    bids := [{ id := 5, auctionEventId := 1, playerId := 2, teamId := 3, bidderId := 4,
               amount := 25, status := .winning, isWinningBid := true, bidTime := 60 }],
    teamEventBudgets := [{ teamId := 3, auctionEventId := 1, budget := 1000, spent := 0,
                           remainingBudget := 1000 }] }

/-- Counterexample to C4: in manual mode, a timer expiry that finds a
winning bid does NOT perform the auto-finalization — the callback leaves
the world untouched (no budget debit, no stats update, the player is not
recorded sold, `currentPlayerId` is not cleared) and emits nothing. -/
theorem timerCallback_manual_bid_counterexample :
    (∃ ev, findEvent manualModeWorld 1 = some ev ∧ ev.settings.autoMode = false ∧
      ev.currentPlayerId = some 2 ∧ ev.status = .live ∧
      ev.stats.playersSold = 0) ∧
    (∃ wb, getWinningBid manualModeWorld.bids 1 2 = some wb ∧ wb.amount = 25) ∧
    timerCallback manualModeWorld 1 2 100 = (manualModeWorld, []) := by
  refine ⟨⟨_, rfl, rfl, rfl, rfl, rfl⟩, ⟨_, rfl, rfl⟩, ?_⟩
  rfl

/-- C4 (amended): a bid-present timer expiry under manual mode performs
no finalization at all (the world is unchanged and nothing is emitted);
manual and auto mode handle the *no-bid* expiry identically (clear the
current player and invoke the rotation advance) — so auto vs. manual
gates the bid-present branch, not the no-bid branch. -/
theorem timerCallback_manual_mode_behavior :
    (∀ (w : World) (eventId playerId now : Nat) (ev : AuctionEvent) (pl : Player)
      (wb : Bid),
      findEvent w eventId = some ev → ev.currentPlayerId = some playerId →
      findPlayer w playerId = some pl → pl.status = .available →
      ev.settings.autoMode = false →
      getWinningBid w.bids eventId playerId = some wb →
      timerCallback w eventId playerId now = (w, [])) ∧
    (∀ (w : World) (eventId playerId now : Nat) (ev : AuctionEvent) (pl : Player),
      findEvent w eventId = some ev → ev.currentPlayerId = some playerId →
      findPlayer w playerId = some pl → pl.status = .available →
      getWinningBid w.bids eventId playerId = none →
      timerCallback w eventId playerId now =
        autoMoveToNextPlayer
          (w.saveEventDoc
            { ev with currentPlayerId := none, currentPlayerStartTime := none })
          eventId) := by
  constructor
  · intro w eventId playerId now ev pl wb hev hcur hpl hav hauto hbid
    unfold timerCallback
    rw [hev]
    simp only [hcur, ne_eq, not_true_eq_false, if_false, hbid, hpl, hav, hauto]
    simp
  · intro w eventId playerId now ev pl hev hcur hpl hav hbid
    unfold timerCallback
    rw [hev]
    rcases hauto : ev.settings.autoMode <;>
      simp only [hcur, ne_eq, not_true_eq_false, if_false, hbid, hpl, hav, hauto] <;>
      simp

/-- Witness for the amended C4 at the concrete manual-mode world. -/
theorem timerCallback_manual_mode_behavior_witness :
    timerCallback manualModeWorld 1 2 100 = (manualModeWorld, []) :=
  timerCallback_manual_mode_behavior.1 manualModeWorld 1 2 100
    { id := 1, status := .live, players := [2],
      currentPlayerId := some 2, currentPlayerStartTime := some 50,
      settings := { autoMode := false } }
    { id := 2, role := .batsman, basePrice := 20, status := .available }
    { id := 5, auctionEventId := 1, playerId := 2, teamId := 3, bidderId := 4,
      amount := 25, status := .winning, isWinningBid := true, bidTime := 60 }
    (by decide) (by decide) (by decide) (by decide) (by decide) (by decide)

lemma find?_cons_pos {α : Type} (p : α → Bool) (a : α) (l : List α) (h : p a = true) :
    List.find? p (a :: l) = some a :=
  List.find?_cons_of_pos l h

lemma find?_cons_neg {α : Type} (p : α → Bool) (a : α) (l : List α) (h : p a = false) :
    List.find? p (a :: l) = List.find? p l :=
  List.find?_cons_of_neg l (by simp [h])

lemma find?_append_cases {α : Type} (p : α → Bool) (l₁ l₂ : List α) :
    (l₁ ++ l₂).find? p =
      match l₁.find? p with
      | some x => some x
      | none => l₂.find? p := by
  induction l₁ with
  | nil => rfl
  | cons a t ih =>
    rcases hp : p a with _ | _
    · simp only [List.cons_append, find?_cons_neg p a _ hp, find?_cons_neg p a t hp, ih]
    · simp only [List.cons_append, find?_cons_pos p a _ hp, find?_cons_pos p a t hp]

lemma find?_map_upsert_self {α : Type} (key : α → Nat) (b : α) :
    ∀ l : List α, l.any (fun c => key c == key b) = true →
      (l.map (fun c => if key c == key b then b else c)).find?
        (fun c => key c == key b) = some b := by
  intro l
  induction l with
  | nil => intro h; cases h
  | cons a t ih =>
    intro h
    simp only [List.map_cons]
    by_cases ha : (key a == key b) = true
    · rw [if_pos ha]
      exact find?_cons_pos (fun c => key c == key b) b _ (by simp)
    · rw [if_neg ha,
        find?_cons_neg (fun c => key c == key b) a _ (by simpa using ha)]
      apply ih
      rw [List.any_cons] at h
      simpa [ha] using h

lemma find?_upsertBy_self {α : Type} (key : α → Nat) (l : List α) (b : α) :
    (upsertBy key l b).find? (fun c => key c == key b) = some b := by
  unfold upsertBy
  by_cases hany : l.any (fun c => key c == key b) = true
  · rw [if_pos hany]
    exact find?_map_upsert_self key b l hany
  · rw [if_neg hany, find?_append_cases]
    have hnone : l.find? (fun c => key c == key b) = none := by
      rw [List.find?_eq_none]
      intro x hx hpx
      exact hany (List.any_eq_true.mpr ⟨x, hx, hpx⟩)
    rw [hnone]
    exact find?_cons_pos (fun c => key c == key b) b [] (by simp)

lemma find?_upsertBy_other {α : Type} (key : α → Nat) (l : List α) (b : α) (i : Nat)
    (h : ¬ i = key b) :
    (upsertBy key l b).find? (fun c => key c == i) = l.find? (fun c => key c == i) := by
  have hb : (key b == i) = false := by
    rw [beq_eq_false_iff_ne]
    exact fun hc => h hc.symm
  unfold upsertBy
  by_cases hany : l.any (fun c => key c == key b) = true
  · rw [if_pos hany]
    clear hany
    induction l with
    | nil => rfl
    | cons a t ih =>
      simp only [List.map_cons]
      by_cases ha : (key a == key b) = true
      · rw [if_pos ha]
        have haf : (key a == i) = false := by
          rw [beq_eq_false_iff_ne, beq_iff_eq.mp ha]
          exact fun hc => h hc.symm
        rw [find?_cons_neg (fun c => key c == i) b _ hb,
          find?_cons_neg (fun c => key c == i) a t haf, ih]
      · rw [if_neg ha]
        rcases hpa : (key a == i) with _ | _
        · rw [find?_cons_neg (fun c => key c == i) a _ hpa,
            find?_cons_neg (fun c => key c == i) a t hpa, ih]
        · rw [find?_cons_pos (fun c => key c == i) a _ hpa,
            find?_cons_pos (fun c => key c == i) a t hpa]
  · rw [if_neg hany, find?_append_cases]
    rcases hl : l.find? (fun c => key c == i) with _ | x
    · rw [find?_cons_neg (fun c => key c == i) b [] hb]
      rfl
    · rfl

lemma eventPreSave_id (s : Option AuctionEvent) (e : AuctionEvent) :
    (eventPreSave s e).id = e.id := by
  unfold eventPreSave
  split_ifs <;> rfl

lemma eventPreSave_same_players (s e : AuctionEvent) (h : s.players = e.players) :
    eventPreSave (some s) e = e := by
  unfold eventPreSave
  simp [h]

lemma findEvent_some_id (w : World) (i : Nat) (e : AuctionEvent)
    (h : findEvent w i = some e) : e.id = i := by
  unfold findEvent at h
  have := List.find?_some h
  simpa using this

lemma findEvent_saveEventDoc_self (w : World) (e : AuctionEvent) :
    findEvent (w.saveEventDoc e) e.id = some (eventPreSave (findEvent w e.id) e) := by
  unfold World.saveEventDoc
  show (upsertBy AuctionEvent.id w.events (eventPreSave (findEvent w e.id) e)).find?
      (fun c => c.id == e.id) = _
  have h := find?_upsertBy_self AuctionEvent.id w.events (eventPreSave (findEvent w e.id) e)
  have hp : (fun c : AuctionEvent => c.id == (eventPreSave (findEvent w e.id) e).id) =
      (fun c : AuctionEvent => c.id == e.id) := by
    funext c
    rw [eventPreSave_id]
  rw [← hp]
  exact h

lemma findEvent_saveEventDoc_other (w : World) (e : AuctionEvent) (i : Nat)
    (h : ¬ i = e.id) :
    findEvent (w.saveEventDoc e) i = findEvent w i := by
  unfold World.saveEventDoc
  show (upsertBy AuctionEvent.id w.events (eventPreSave (findEvent w e.id) e)).find?
      (fun c => c.id == i) = _
  exact find?_upsertBy_other AuctionEvent.id w.events _ i (by rw [eventPreSave_id]; exact h)

lemma autoMove_world_shape (w : World) (eid : Nat) :
    ∃ evs, (autoMoveToNextPlayer w eid).1 = { w with events := evs } := by
  unfold autoMoveToNextPlayer
  repeat' split
  all_goals exact ⟨_, rfl⟩

lemma foldl_pick_some (t : List Bid) (c : Bid) :
    t.foldl
      (fun acc b =>
        match acc with
        | none => some b
        | some c => if b.bidTime > c.bidTime then some b else some c)
      (some c) ≠ none := by
  induction t generalizing c with
  | nil => simp
  | cons b t ih =>
    simp only [List.foldl_cons]
    split <;> apply ih

lemma getWinningBid_none_filter (store : List Bid) (e p : Nat)
    (h : getWinningBid store e p = none) :
    store.filter (fun b => b.auctionEventId == e && b.playerId == p && b.isWinningBid) = [] := by
  unfold getWinningBid at h
  rcases hf : store.filter
      (fun b => b.auctionEventId == e && b.playerId == p && b.isWinningBid) with _ | ⟨b, t⟩
  · exact hf
  · rw [hf] at h
    simp only [List.foldl_cons] at h
    exact absurd h (foldl_pick_some t b)

lemma not_sold_of_no_winning (w : World) (eid pid : Nat)
    (h : getWinningBid w.bids eid pid = none) : ¬ pid ∈ soldPlayerIds w eid := by
  intro hmem
  unfold soldPlayerIds at hmem
  obtain ⟨b, hb, hbp⟩ := List.mem_map.mp hmem
  have hbf := List.mem_filter.mp hb
  have hempty := getWinningBid_none_filter w.bids eid b.playerId
    (by rw [← hbp] at h; exact h)
  have hbmem : b ∈ w.bids.filter
      (fun c => c.auctionEventId == eid && c.playerId == b.playerId && c.isWinningBid) := by
    apply List.mem_filter.mpr
    refine ⟨hbf.1, ?_⟩
    have h2 := hbf.2
    simp only [Bool.and_eq_true, beq_iff_eq] at h2
    simp [h2.1, h2.2]
  rw [hempty] at hbmem
  cases hbmem

lemma autoMove_event_fields (w : World) (eid : Nat) (ev' : AuctionEvent)
    (h : findEvent (autoMoveToNextPlayer w eid).1 eid = some ev') :
    ∃ ev0, findEvent w eid = some ev0 ∧
      ev'.currentPlayerId = ev0.currentPlayerId ∧
      ev'.currentPlayerStartTime = ev0.currentPlayerStartTime ∧
      ev'.stats = ev0.stats ∧ ev'.status = ev0.status ∧ ev'.players = ev0.players := by
  unfold autoMoveToNextPlayer at h
  rcases hf : findEvent w eid with _ | ev0
  · rw [hf] at h
    have h' : findEvent w eid = some ev' := h
    rw [hf] at h'
    cases h'
  · simp only [hf] at h
    have hid : ev0.id = eid := findEvent_some_id w eid ev0 hf
    subst hid
    by_cases hst : ev0.status ≠ EventStatus.live
    · rw [if_pos hst] at h
      have h' : findEvent w ev0.id = some ev' := h
      rw [hf] at h'
      obtain rfl := Option.some.inj h'
      exact ⟨ev0, rfl, rfl, rfl, rfl, rfl, rfl⟩
    · rw [if_neg hst] at h
      rcases hac : availableInCategory w ev0 ev0.currentCategory with _ | ⟨p, t⟩ <;>
        simp only [hac] at h
      · by_cases hex : getNextCategory ev0.currentCategory = Role.batsman ∧
            ev0.currentCategory = Role.allRounder ∧
            (w.players.filter fun q =>
              ev0.players.contains q.id && !(soldPlayerIds w ev0.id).contains q.id) = []
        · rw [if_pos hex] at h
          have h' : findEvent w ev0.id = some ev' := h
          rw [hf] at h'
          obtain rfl := Option.some.inj h'
          exact ⟨ev0, rfl, rfl, rfl, rfl, rfl, rfl⟩
        · rw [if_neg hex] at h
          have hself : findEvent
              (w.saveEventDoc
                { ev0 with currentCategory := getNextCategory ev0.currentCategory }) ev0.id =
              some (eventPreSave (findEvent w ev0.id)
                { ev0 with currentCategory := getNextCategory ev0.currentCategory }) :=
            findEvent_saveEventDoc_self w
              { ev0 with currentCategory := getNextCategory ev0.currentCategory }
          rw [hf, eventPreSave_same_players ev0
            { ev0 with currentCategory := getNextCategory ev0.currentCategory } rfl] at hself
          rcases hac2 : availableInCategory
              (w.saveEventDoc
                { ev0 with currentCategory := getNextCategory ev0.currentCategory })
              { ev0 with currentCategory := getNextCategory ev0.currentCategory }
              (getNextCategory ev0.currentCategory) with _ | ⟨p2, t2⟩ <;>
            simp only [hac2] at h <;>
          · have h' : findEvent
                (w.saveEventDoc
                  { ev0 with currentCategory := getNextCategory ev0.currentCategory }) ev0.id =
                some ev' := h
            rw [hself] at h'
            obtain rfl := Option.some.inj h'
            exact ⟨ev0, rfl, rfl, rfl, rfl, rfl, rfl⟩
      · have h' : findEvent w ev0.id = some ev' := h
        rw [hf] at h'
        obtain rfl := Option.some.inj h'
        exact ⟨ev0, rfl, rfl, rfl, rfl, rfl, rfl⟩

/-- C5: a timer expiry with no winning bid (auto mode) does not mark the
player unsold: the player document (hence its global status) is
untouched, the event's current player and start time are cleared, the
rotation advance is invoked on the cleared state, the Bid collection is
unchanged, and the player is still outside the derived per-event sold
set (so it remains eligible for re-offering); the event's
`stats.playersUnsold` is not incremented and its status is unchanged. -/
theorem timerCallback_noBid_requeues (w : World) (eventId playerId now : Nat)
    (ev : AuctionEvent) (pl : Player)
    (hev : findEvent w eventId = some ev)
    (hcur : ev.currentPlayerId = some playerId)
    (hpl : findPlayer w playerId = some pl)
    (hav : pl.status = .available)
    (hauto : ev.settings.autoMode = true)
    (hnobid : getWinningBid w.bids eventId playerId = none) :
    timerCallback w eventId playerId now =
      autoMoveToNextPlayer
        (w.saveEventDoc { ev with currentPlayerId := none, currentPlayerStartTime := none })
        eventId ∧
    (timerCallback w eventId playerId now).1.players = w.players ∧
    findPlayer (timerCallback w eventId playerId now).1 playerId = some pl ∧
    (timerCallback w eventId playerId now).1.bids = w.bids ∧
    ¬ playerId ∈ soldPlayerIds (timerCallback w eventId playerId now).1 eventId ∧
    ∀ ev', findEvent (timerCallback w eventId playerId now).1 eventId = some ev' →
      ev'.currentPlayerId = none ∧ ev'.currentPlayerStartTime = none ∧
      ev'.stats.playersUnsold = ev.stats.playersUnsold ∧ ev'.status = ev.status := by
  have heq : timerCallback w eventId playerId now =
      autoMoveToNextPlayer
        (w.saveEventDoc { ev with currentPlayerId := none, currentPlayerStartTime := none })
        eventId := by
    unfold timerCallback
    rw [hev]
    simp only [hcur, ne_eq, not_true_eq_false, if_false, hnobid, hpl, hav, hauto]
    simp
  obtain ⟨evs, hshape⟩ := autoMove_world_shape
    (w.saveEventDoc { ev with currentPlayerId := none, currentPlayerStartTime := none })
    eventId
  refine ⟨heq, ?_, ?_, ?_, ?_, ?_⟩
  · rw [heq, hshape]
    rfl
  · rw [heq, hshape]
    show (w.players.find? fun q => q.id == playerId) = some pl
    exact hpl
  · rw [heq, hshape]
    rfl
  · rw [heq, hshape]
    show ¬ playerId ∈ soldPlayerIds w eventId
    exact not_sold_of_no_winning w eventId playerId hnobid
  · intro ev' h'
    rw [heq] at h'
    obtain ⟨ev0, hfind0, hcp, hcst, hstats, hstatus, hplayers⟩ :=
      autoMove_event_fields _ eventId ev' h'
    have hevid : ev.id = eventId := findEvent_some_id w eventId ev hev
    have hW : findEvent w ev.id = some ev := by rw [hevid]; exact hev
    have hself : findEvent
        (w.saveEventDoc { ev with currentPlayerId := none, currentPlayerStartTime := none })
        ev.id =
        some (eventPreSave (findEvent w ev.id)
          { ev with currentPlayerId := none, currentPlayerStartTime := none }) :=
      findEvent_saveEventDoc_self w
        { ev with currentPlayerId := none, currentPlayerStartTime := none }
    rw [hW, eventPreSave_same_players ev
      { ev with currentPlayerId := none, currentPlayerStartTime := none } rfl] at hself
    have hself' : findEvent
        (w.saveEventDoc { ev with currentPlayerId := none, currentPlayerStartTime := none })
        eventId =
        some { ev with currentPlayerId := none, currentPlayerStartTime := none } := by
      rw [← hevid]
      exact hself
    obtain rfl := Option.some.inj (hself'.symm.trans hfind0)
    refine ⟨?_, ?_, ?_, ?_⟩
    · rw [hcp]
    · rw [hcst]
    · rw [hstats]
    · rw [hstatus]

/-- A concrete auto-mode world with a live event, current player 2 and no
bids at all. -/
def noBidWorld : World :=
  { events := [{ id := 1, status := .live, players := [2],
                 currentPlayerId := some 2, currentPlayerStartTime := some 50 }],
    players := [{ id := 2, role := .batsman, basePrice := 20, status := .available }] }

/-- Witness for C5 at `noBidWorld`. -/
theorem timerCallback_noBid_requeues_witness :
    timerCallback noBidWorld 1 2 100 =
      autoMoveToNextPlayer
        (noBidWorld.saveEventDoc
          { id := 1, status := .live, players := [2],
            currentPlayerId := none, currentPlayerStartTime := none })
        1 ∧
    (timerCallback noBidWorld 1 2 100).1.players = noBidWorld.players ∧
    findPlayer (timerCallback noBidWorld 1 2 100).1 2 =
      some { id := 2, role := .batsman, basePrice := 20, status := .available } ∧
    (timerCallback noBidWorld 1 2 100).1.bids = noBidWorld.bids ∧
    ¬ 2 ∈ soldPlayerIds (timerCallback noBidWorld 1 2 100).1 1 ∧
    ∀ ev', findEvent (timerCallback noBidWorld 1 2 100).1 1 = some ev' →
      ev'.currentPlayerId = none ∧ ev'.currentPlayerStartTime = none ∧
      ev'.stats.playersUnsold =
        ({ id := 1, status := .live, players := [2], currentPlayerId := some 2,
           currentPlayerStartTime := some 50 } : AuctionEvent).stats.playersUnsold ∧
      ev'.status =
        ({ id := 1, status := .live, players := [2], currentPlayerId := some 2,
           currentPlayerStartTime := some 50 } : AuctionEvent).status :=
  timerCallback_noBid_requeues noBidWorld 1 2 100
    { id := 1, status := .live, players := [2],
      currentPlayerId := some 2, currentPlayerStartTime := some 50 }
    { id := 2, role := .batsman, basePrice := 20, status := .available }
    (by decide) (by decide) (by decide) (by decide) (by decide) (by decide)

lemma markAsSold_available (pl : Player) (tid : Nat) (amt : Int)
    (hav : pl.status = .available) (hbp0 : 0 ≤ pl.basePrice) (hle : pl.basePrice ≤ amt) :
    pl.markAsSold tid amt =
      .ok { pl with
            soldPrice := some amt
            currentPrice := some pl.basePrice } := by
  unfold Player.markAsSold savePlayer
  rw [if_neg (by omega)]
  rw [playerPreSave_available _ (show ({ pl with
    soldPrice := some amt
    currentPrice := some amt } : Player).status = .available from hav)]
  rw [if_pos]
  unfold playerValidators
  simp only [Bool.and_eq_true, decide_eq_true_eq]
  refine ⟨⟨⟨by exact hbp0, by exact hbp0⟩, by omega⟩, ?_⟩
  rw [if_neg]
  show ¬ pl.status = .sold
  rw [hav]
  intro hc
  cases hc

lemma getOrCreate_found (store : List TeamEventBudget) (teamId eventId : Nat) (d : Int)
    (b : TeamEventBudget) (h : findTeamEventBudget store teamId eventId = some b) :
    TeamEventBudget.getOrCreate store teamId eventId d = .ok (b, store) := by
  unfold TeamEventBudget.getOrCreate
  rw [h]

lemma addPurchase_ok (t : TeamEventBudget) (amt : Int)
    (hrem : t.remainingBudget = t.budget - t.spent) (h0s : 0 ≤ t.spent)
    (h0a : 0 ≤ amt) (hcan : amt ≤ t.remainingBudget) :
    t.addPurchase amt =
      .ok { t with
            spent := t.spent + amt
            remainingBudget := t.budget - (t.spent + amt) } := by
  unfold TeamEventBudget.addPurchase TeamEventBudget.canAfford saveTeamEventBudget
  rw [if_neg (by simp only [decide_eq_true_eq]; omega)]
  rw [if_pos]
  · unfold tebPreSave
    rfl
  · unfold tebValidators tebPreSave
    simp only [Bool.and_eq_true, decide_eq_true_eq]
    omega

lemma completeAuction_live (e : AuctionEvent) (now : Nat) (h : e.status = .live) :
    e.completeAuction now =
      .ok { e with
            status := .completed
            completedAt := some now
            endDate := some (e.endDate.getD now) } := by
  unfold AuctionEvent.completeAuction
  rw [if_neg]
  intro hc
  exact hc.1 h

lemma findTEB_keys (store : List TeamEventBudget) (tid eid : Nat) (t : TeamEventBudget)
    (h : findTeamEventBudget store tid eid = some t) :
    t.teamId = tid ∧ t.auctionEventId = eid := by
  unfold findTeamEventBudget at h
  have := List.find?_some h
  simp only [Bool.and_eq_true, beq_iff_eq] at this
  exact this

lemma findTEB_update (store : List TeamEventBudget) (t' : TeamEventBudget) (tid eid : Nat)
    (hk1 : t'.teamId = tid) (hk2 : t'.auctionEventId = eid)
    (hfound : (findTeamEventBudget store tid eid).isSome = true) :
    findTeamEventBudget (updateTeamEventBudgetStore store t') tid eid = some t' := by
  unfold findTeamEventBudget at hfound ⊢
  unfold updateTeamEventBudgetStore
  induction store with
  | nil => cases hfound
  | cons c cs ih =>
    by_cases hc : (c.teamId == tid && c.auctionEventId == eid) = true
    · simp only [List.map_cons]
      have hrepl : (c.teamId == t'.teamId && c.auctionEventId == t'.auctionEventId) = true := by
        rw [hk1, hk2]
        exact hc
      rw [if_pos hrepl]
      exact find?_cons_pos (fun x => x.teamId == tid && x.auctionEventId == eid) t' _
        (by simp only [Bool.and_eq_true, beq_iff_eq]; exact ⟨hk1, hk2⟩)
    · simp only [List.map_cons]
      have hrepl : (c.teamId == t'.teamId && c.auctionEventId == t'.auctionEventId) = false := by
        rw [hk1, hk2]
        simpa using hc
      rw [if_neg (by simp [hrepl])]
      rw [find?_cons_neg (fun x => x.teamId == tid && x.auctionEventId == eid) c _
        (by simpa using hc)]
      apply ih
      rw [find?_cons_neg (fun x => x.teamId == tid && x.auctionEventId == eid) c cs
        (by simpa using hc)] at hfound
      exact hfound


lemma findPlayer_some_id (w : World) (i : Nat) (p : Player)
    (h : findPlayer w i = some p) : p.id = i := by
  unfold findPlayer at h
  have := List.find?_some h
  simpa using this

lemma findEvent_soldWorld (w : World) (ev : AuctionEvent) (wb : Bid)
    (ps : List Player) (ts : List Team) (tebs : List TeamEventBudget)
    (hev : findEvent w ev.id = some ev) :
    findEvent
      (({ w with players := ps
                 teams := ts
                 teamEventBudgets := tebs }.saveEventDoc
          (ev.updatePlayerSold wb.amount)).saveEventDoc
        { ev.updatePlayerSold wb.amount with
          currentPlayerId := none, currentPlayerStartTime := none })
      ev.id =
    some { ev.updatePlayerSold wb.amount with
           currentPlayerId := none, currentPlayerStartTime := none } := by
  have hW : findEvent
      { w with players := ps
               teams := ts
               teamEventBudgets := tebs } ev.id = some ev := hev
  have h5 : findEvent
      ({ w with players := ps
                teams := ts
                teamEventBudgets := tebs }.saveEventDoc
        (ev.updatePlayerSold wb.amount)) ev.id =
      some (eventPreSave
        (findEvent { w with players := ps
                            teams := ts
                            teamEventBudgets := tebs } ev.id)
        (ev.updatePlayerSold wb.amount)) :=
    findEvent_saveEventDoc_self _ _
  rw [hW, eventPreSave_same_players ev (ev.updatePlayerSold wb.amount) rfl] at h5
  have h6 : findEvent
      (({ w with players := ps
                 teams := ts
                 teamEventBudgets := tebs }.saveEventDoc
          (ev.updatePlayerSold wb.amount)).saveEventDoc
        { ev.updatePlayerSold wb.amount with
          currentPlayerId := none, currentPlayerStartTime := none }) ev.id =
      some (eventPreSave
        (findEvent ({ w with players := ps
                             teams := ts
                             teamEventBudgets := tebs }.saveEventDoc
          (ev.updatePlayerSold wb.amount)) ev.id)
        { ev.updatePlayerSold wb.amount with
          currentPlayerId := none, currentPlayerStartTime := none }) :=
    findEvent_saveEventDoc_self _ _
  rw [h5, eventPreSave_same_players (ev.updatePlayerSold wb.amount)
    { ev.updatePlayerSold wb.amount with
      currentPlayerId := none, currentPlayerStartTime := none } rfl] at h6
  exact h6

lemma autoMove_findEvent_some (w : World) (eid : Nat) (ev0 : AuctionEvent)
    (h : findEvent w eid = some ev0) :
    findEvent (autoMoveToNextPlayer w eid).1 eid = some ev0 ∨
    findEvent (autoMoveToNextPlayer w eid).1 eid =
      some { ev0 with currentCategory := getNextCategory ev0.currentCategory } := by
  have hid : ev0.id = eid := findEvent_some_id w eid ev0 h
  subst hid
  unfold autoMoveToNextPlayer
  simp only [h]
  by_cases hst : ev0.status ≠ EventStatus.live
  · rw [if_pos hst]
    exact Or.inl h
  · rw [if_neg hst]
    rcases hac : availableInCategory w ev0 ev0.currentCategory with _ | ⟨p, t⟩ <;>
      simp only [hac]
    · by_cases hex : getNextCategory ev0.currentCategory = Role.batsman ∧
          ev0.currentCategory = Role.allRounder ∧
          (w.players.filter fun q =>
            ev0.players.contains q.id && !(soldPlayerIds w ev0.id).contains q.id) = []
      · rw [if_pos hex]
        exact Or.inl h
      · rw [if_neg hex]
        have hself : findEvent
            (w.saveEventDoc
              { ev0 with currentCategory := getNextCategory ev0.currentCategory }) ev0.id =
            some (eventPreSave (findEvent w ev0.id)
              { ev0 with currentCategory := getNextCategory ev0.currentCategory }) :=
          findEvent_saveEventDoc_self w
            { ev0 with currentCategory := getNextCategory ev0.currentCategory }
        rw [h, eventPreSave_same_players ev0
          { ev0 with currentCategory := getNextCategory ev0.currentCategory } rfl] at hself
        rcases hac2 : availableInCategory
            (w.saveEventDoc
              { ev0 with currentCategory := getNextCategory ev0.currentCategory })
            { ev0 with currentCategory := getNextCategory ev0.currentCategory }
            (getNextCategory ev0.currentCategory) with _ | ⟨p2, t2⟩ <;>
          simp only [hac2] <;>
          exact Or.inr hself
    · exact Or.inl h

lemma soldFinalize_conclusions (w : World) (ev : AuctionEvent) (pl : Player) (wb : Bid)
    (team : Team) (teb : TeamEventBudget) (now : Nat) (ts : List Team)
    (res : World × List Effect)
    (hev : findEvent w ev.id = some ev)
    (hlive : ev.status = .live)
    (hteb : findTeamEventBudget w.teamEventBudgets team.id ev.id = some teb)
    (hres : res =
      (if (decide (ev.players.length > 0) &&
            ev.players.all (fun q => (soldPlayerIds w ev.id).contains q)) = true then
        ((({ w with
             players := upsertBy Player.id w.players
               { pl with soldPrice := some wb.amount, currentPrice := some pl.basePrice }
             teams := ts
             teamEventBudgets := updateTeamEventBudgetStore w.teamEventBudgets
               { teb with spent := teb.spent + wb.amount
                          remainingBudget := teb.budget - (teb.spent + wb.amount) }
           }.saveEventDoc (ev.updatePlayerSold wb.amount)).saveEventDoc
            { ev.updatePlayerSold wb.amount with
              currentPlayerId := none, currentPlayerStartTime := none }).saveEventDoc
          { ev.updatePlayerSold wb.amount with
            currentPlayerId := none
            currentPlayerStartTime := none
            status := EventStatus.completed
            completedAt := some now
            endDate := some (ev.endDate.getD now) },
         ([Effect.playerSold ev.id pl.id team.id wb.amount] ++
          (match findTeamEventBudget
              (updateTeamEventBudgetStore w.teamEventBudgets
                { teb with spent := teb.spent + wb.amount
                           remainingBudget := teb.budget - (teb.spent + wb.amount) })
              team.id ev.id, team.ownerId with
           | some updatedBudget, some ownerId =>
             [Effect.teamBalanceUpdate ev.id ownerId (max 0 updatedBudget.remainingBudget)]
           | _, _ => []) ++
          [Effect.availablePlayersUpdate ev.id]) ++ [Effect.auctionEnded ev.id])
      else
        ((autoMoveToNextPlayer
            (({ w with
                players := upsertBy Player.id w.players
                  { pl with soldPrice := some wb.amount, currentPrice := some pl.basePrice }
                teams := ts
                teamEventBudgets := updateTeamEventBudgetStore w.teamEventBudgets
                  { teb with spent := teb.spent + wb.amount
                             remainingBudget := teb.budget - (teb.spent + wb.amount) }
              }.saveEventDoc (ev.updatePlayerSold wb.amount)).saveEventDoc
              { ev.updatePlayerSold wb.amount with
                currentPlayerId := none, currentPlayerStartTime := none })
            ev.id).1,
         ([Effect.playerSold ev.id pl.id team.id wb.amount] ++
          (match findTeamEventBudget
              (updateTeamEventBudgetStore w.teamEventBudgets
                { teb with spent := teb.spent + wb.amount
                           remainingBudget := teb.budget - (teb.spent + wb.amount) })
              team.id ev.id, team.ownerId with
           | some updatedBudget, some ownerId =>
             [Effect.teamBalanceUpdate ev.id ownerId (max 0 updatedBudget.remainingBudget)]
           | _, _ => []) ++
          [Effect.availablePlayersUpdate ev.id]) ++
         (autoMoveToNextPlayer
            (({ w with
                players := upsertBy Player.id w.players
                  { pl with soldPrice := some wb.amount, currentPrice := some pl.basePrice }
                teams := ts
                teamEventBudgets := updateTeamEventBudgetStore w.teamEventBudgets
                  { teb with spent := teb.spent + wb.amount
                             remainingBudget := teb.budget - (teb.spent + wb.amount) }
              }.saveEventDoc (ev.updatePlayerSold wb.amount)).saveEventDoc
              { ev.updatePlayerSold wb.amount with
                currentPlayerId := none, currentPlayerStartTime := none })
            ev.id).2))) :
    (∃ teb'', findTeamEventBudget res.1.teamEventBudgets team.id ev.id = some teb'' ∧
      teb''.budget = teb.budget ∧ teb''.spent = teb.spent + wb.amount ∧
      teb''.remainingBudget = teb.budget - (teb.spent + wb.amount)) ∧
    (∃ ev', findEvent res.1 ev.id = some ev' ∧
      ev'.stats.playersSold = ev.stats.playersSold + 1 ∧
      ev'.stats.totalAmountSpent = ev.stats.totalAmountSpent + wb.amount ∧
      ev'.currentPlayerId = none ∧ ev'.currentPlayerStartTime = none ∧
      ev'.status = (if (decide (ev.players.length > 0) &&
          ev.players.all (fun q => (soldPlayerIds w ev.id).contains q)) = true then
          EventStatus.completed else EventStatus.live)) ∧
    ((decide (ev.players.length > 0) &&
        ev.players.all (fun q => (soldPlayerIds w ev.id).contains q)) = true →
      ∃ fx, res.2 = fx ++ [Effect.auctionEnded ev.id]) ∧
    ((decide (ev.players.length > 0) &&
        ev.players.all (fun q => (soldPlayerIds w ev.id).contains q)) = false →
      ∃ wS fx, res = ((autoMoveToNextPlayer wS ev.id).1,
          fx ++ (autoMoveToNextPlayer wS ev.id).2) ∧
        findEvent wS ev.id = some { ev.updatePlayerSold wb.amount with
          currentPlayerId := none, currentPlayerStartTime := none }) := by
  subst hres
  have hkeys := findTEB_keys w.teamEventBudgets team.id ev.id teb hteb
  have hB : findTeamEventBudget
      (updateTeamEventBudgetStore w.teamEventBudgets
        { teb with spent := teb.spent + wb.amount
                   remainingBudget := teb.budget - (teb.spent + wb.amount) })
      team.id ev.id =
      some { teb with spent := teb.spent + wb.amount
                      remainingBudget := teb.budget - (teb.spent + wb.amount) } :=
    findTEB_update w.teamEventBudgets
      { teb with spent := teb.spent + wb.amount
                 remainingBudget := teb.budget - (teb.spent + wb.amount) }
      team.id ev.id hkeys.1 hkeys.2 (by rw [hteb]; rfl)
  have h6 := findEvent_soldWorld w ev wb
    (upsertBy Player.id w.players
      { pl with soldPrice := some wb.amount, currentPrice := some pl.basePrice })
    ts
    (updateTeamEventBudgetStore w.teamEventBudgets
      { teb with spent := teb.spent + wb.amount
                 remainingBudget := teb.budget - (teb.spent + wb.amount) })
    hev
  by_cases hAS : (decide (ev.players.length > 0) &&
      ev.players.all (fun q => (soldPlayerIds w ev.id).contains q)) = true
  · simp only [if_pos hAS]
    have h7 : findEvent
        ((({ w with
             players := upsertBy Player.id w.players
               { pl with soldPrice := some wb.amount, currentPrice := some pl.basePrice }
             teams := ts
             teamEventBudgets := updateTeamEventBudgetStore w.teamEventBudgets
               { teb with spent := teb.spent + wb.amount
                          remainingBudget := teb.budget - (teb.spent + wb.amount) }
           }.saveEventDoc (ev.updatePlayerSold wb.amount)).saveEventDoc
            { ev.updatePlayerSold wb.amount with
              currentPlayerId := none, currentPlayerStartTime := none }).saveEventDoc
          { ev.updatePlayerSold wb.amount with
            currentPlayerId := none
            currentPlayerStartTime := none
            status := EventStatus.completed
            completedAt := some now
            endDate := some (ev.endDate.getD now) }) ev.id =
        some (eventPreSave
          (findEvent
            (({ w with
                players := upsertBy Player.id w.players
                  { pl with soldPrice := some wb.amount, currentPrice := some pl.basePrice }
                teams := ts
                teamEventBudgets := updateTeamEventBudgetStore w.teamEventBudgets
                  { teb with spent := teb.spent + wb.amount
                             remainingBudget := teb.budget - (teb.spent + wb.amount) }
              }.saveEventDoc (ev.updatePlayerSold wb.amount)).saveEventDoc
              { ev.updatePlayerSold wb.amount with
                currentPlayerId := none, currentPlayerStartTime := none }) ev.id)
          { ev.updatePlayerSold wb.amount with
            currentPlayerId := none
            currentPlayerStartTime := none
            status := EventStatus.completed
            completedAt := some now
            endDate := some (ev.endDate.getD now) }) :=
      findEvent_saveEventDoc_self _ _
    rw [h6, eventPreSave_same_players
      { ev.updatePlayerSold wb.amount with
        currentPlayerId := none, currentPlayerStartTime := none }
      { ev.updatePlayerSold wb.amount with
        currentPlayerId := none
        currentPlayerStartTime := none
        status := EventStatus.completed
        completedAt := some now
        endDate := some (ev.endDate.getD now) } rfl] at h7
    refine ⟨⟨{ teb with spent := teb.spent + wb.amount
                        remainingBudget := teb.budget - (teb.spent + wb.amount) },
        ?_, rfl, rfl, rfl⟩,
      ⟨{ ev.updatePlayerSold wb.amount with
         currentPlayerId := none
         currentPlayerStartTime := none
         status := EventStatus.completed
         completedAt := some now
         endDate := some (ev.endDate.getD now) }, ?_, rfl, rfl, rfl, rfl, rfl⟩,
      ?_, ?_⟩
    · show findTeamEventBudget
        (updateTeamEventBudgetStore w.teamEventBudgets
          { teb with spent := teb.spent + wb.amount
                     remainingBudget := teb.budget - (teb.spent + wb.amount) })
        team.id ev.id = _
      exact hB
    · exact h7
    · intro _
      exact ⟨_, rfl⟩
    · intro hASf
      rw [hAS] at hASf
      exact absurd hASf (by decide)
  · simp only [if_neg hAS]
    have hASf : (decide (ev.players.length > 0) &&
        ev.players.all (fun q => (soldPlayerIds w ev.id).contains q)) = false :=
      Bool.eq_false_iff.mpr hAS
    obtain ⟨evs, hshape⟩ := autoMove_world_shape
      (({ w with
          players := upsertBy Player.id w.players
            { pl with soldPrice := some wb.amount, currentPrice := some pl.basePrice }
          teams := ts
          teamEventBudgets := updateTeamEventBudgetStore w.teamEventBudgets
            { teb with spent := teb.spent + wb.amount
                       remainingBudget := teb.budget - (teb.spent + wb.amount) }
        }.saveEventDoc (ev.updatePlayerSold wb.amount)).saveEventDoc
        { ev.updatePlayerSold wb.amount with
          currentPlayerId := none, currentPlayerStartTime := none })
      ev.id
    refine ⟨⟨{ teb with spent := teb.spent + wb.amount
                        remainingBudget := teb.budget - (teb.spent + wb.amount) },
        ?_, rfl, rfl, rfl⟩, ?_, ?_, ?_⟩
    · show findTeamEventBudget
        ((autoMoveToNextPlayer
          (({ w with
              players := upsertBy Player.id w.players
                { pl with soldPrice := some wb.amount, currentPrice := some pl.basePrice }
              teams := ts
              teamEventBudgets := updateTeamEventBudgetStore w.teamEventBudgets
                { teb with spent := teb.spent + wb.amount
                           remainingBudget := teb.budget - (teb.spent + wb.amount) }
            }.saveEventDoc (ev.updatePlayerSold wb.amount)).saveEventDoc
            { ev.updatePlayerSold wb.amount with
              currentPlayerId := none, currentPlayerStartTime := none })
          ev.id).1).teamEventBudgets team.id ev.id = _
      rw [hshape]
      exact hB
    · rcases autoMove_findEvent_some _ ev.id
          { ev.updatePlayerSold wb.amount with
            currentPlayerId := none, currentPlayerStartTime := none } h6 with hor | hor
      · refine ⟨{ ev.updatePlayerSold wb.amount with
            currentPlayerId := none, currentPlayerStartTime := none },
          hor, rfl, rfl, rfl, rfl, ?_⟩
        exact hlive
      · refine ⟨{ ({ ev.updatePlayerSold wb.amount with
              currentPlayerId := none, currentPlayerStartTime := none } :
            AuctionEvent) with
            currentCategory := getNextCategory
              ({ ev.updatePlayerSold wb.amount with
                 currentPlayerId := none,
                 currentPlayerStartTime := none } : AuctionEvent).currentCategory },
          hor, rfl, rfl, rfl, rfl, ?_⟩
        exact hlive
    · intro hASt
      exact absurd hASt hAS
    · intro _
      refine ⟨_, _, rfl, h6⟩

set_option maxHeartbeats 1000000 in
/-- C3: in auto mode, a timer expiry for the current player with a winning bid
of amount A present finalizes the sale: the buyer's per-event budget is
debited by exactly A (spent increases by A, remainingBudget decreases to
budget - (spent + A)), the event's stats.playersSold is incremented by 1 and
stats.totalAmountSpent by A, currentPlayerId and currentPlayerStartTime are
cleared, and then the auction is completed (status `completed`, with the
auction-ended event emitted last) when every player of the event now has a
winning bid, or otherwise the category rotation advance is invoked on the
post-sale state. -/
theorem timerCallback_autoMode_sold_finalizes
    (w : World) (eventId playerId now : Nat)
    (ev : AuctionEvent) (pl : Player) (wb : Bid) (team : Team) (teb : TeamEventBudget)
    (hev : findEvent w eventId = some ev)
    (hcur : ev.currentPlayerId = some playerId)
    (hpl : findPlayer w playerId = some pl)
    (hav : pl.status = .available)
    (hauto : ev.settings.autoMode = true)
    (hlive : ev.status = .live)
    (hbid : getWinningBid w.bids eventId playerId = some wb)
    (hteam : findTeam w wb.teamId = some team)
    (hteb : findTeamEventBudget w.teamEventBudgets team.id eventId = some teb)
    (hbp0 : 0 ≤ pl.basePrice) (hble : pl.basePrice ≤ wb.amount)
    (hrem : teb.remainingBudget = teb.budget - teb.spent)
    (h0s : 0 ≤ teb.spent)
    (hcan : wb.amount ≤ teb.remainingBudget)
    (htb : 0 ≤ team.budget) (hts : 0 ≤ team.spent) (htsb : team.spent ≤ team.budget) :
    (∃ teb'', findTeamEventBudget
        (timerCallback w eventId playerId now).1.teamEventBudgets team.id eventId =
        some teb'' ∧
      teb''.budget = teb.budget ∧ teb''.spent = teb.spent + wb.amount ∧
      teb''.remainingBudget = teb.budget - (teb.spent + wb.amount)) ∧
    (∃ ev', findEvent (timerCallback w eventId playerId now).1 eventId = some ev' ∧
      ev'.stats.playersSold = ev.stats.playersSold + 1 ∧
      ev'.stats.totalAmountSpent = ev.stats.totalAmountSpent + wb.amount ∧
      ev'.currentPlayerId = none ∧ ev'.currentPlayerStartTime = none ∧
      ev'.status = (if (decide (ev.players.length > 0) &&
          ev.players.all (fun q => (soldPlayerIds w eventId).contains q)) = true then
          EventStatus.completed else EventStatus.live)) ∧
    ((decide (ev.players.length > 0) &&
        ev.players.all (fun q => (soldPlayerIds w eventId).contains q)) = true →
      ∃ fx, (timerCallback w eventId playerId now).2 = fx ++ [Effect.auctionEnded eventId]) ∧
    ((decide (ev.players.length > 0) &&
        ev.players.all (fun q => (soldPlayerIds w eventId).contains q)) = false →
      ∃ wS fx, timerCallback w eventId playerId now =
          ((autoMoveToNextPlayer wS eventId).1, fx ++ (autoMoveToNextPlayer wS eventId).2) ∧
        findEvent wS eventId = some { ev.updatePlayerSold wb.amount with
          currentPlayerId := none, currentPlayerStartTime := none }) := by
  have hevid : ev.id = eventId := findEvent_some_id w eventId ev hev
  subst hevid
  have hplid : pl.id = playerId := findPlayer_some_id w playerId pl hpl
  subst hplid
  have hms := markAsSold_available pl team.id wb.amount hav hbp0 hble
  have hgo := getOrCreate_found w.teamEventBudgets team.id ev.id
      (if ev.settings.startingBudget = 0 then 10000 else ev.settings.startingBudget) teb hteb
  have hap := addPurchase_ok teb wb.amount hrem h0s (by omega) hcan
  have hcomplete := completeAuction_live
      { ev.updatePlayerSold wb.amount with
        currentPlayerId := none, currentPlayerStartTime := none } now hlive
  by_cases hcont : team.players.contains pl.id = true
  · refine soldFinalize_conclusions w ev pl wb team teb now w.teams _ hev hlive hteb ?_
    have h6 := findEvent_soldWorld w ev wb
      (upsertBy Player.id w.players
        { pl with soldPrice := some wb.amount, currentPrice := some pl.basePrice })
      w.teams
      (updateTeamEventBudgetStore w.teamEventBudgets
        { teb with spent := teb.spent + wb.amount
                   remainingBudget := teb.budget - (teb.spent + wb.amount) })
      hev
    unfold timerCallback timerCallbackSoldBranch
    rw [hev]
    simp only [hcur, ne_eq, not_true_eq_false, if_false, if_true, hbid, hpl, hav, hauto,
      hteam, hms, World.savePlayerDoc, World.saveTeamDoc, hgo, hap, hcont,
      Bool.not_true, Bool.false_eq_true]
    simp only [hav] at h6
    simp only [h6]
    by_cases hAS : (decide (ev.players.length > 0) &&
        ev.players.all (fun q => (soldPlayerIds w ev.id).contains q)) = true
    · rw [if_pos hAS]
      split
      next hs =>
        split
        next e heq =>
          have heq' : AuctionEvent.completeAuction
              { ev.updatePlayerSold wb.amount with
                currentPlayerId := none, currentPlayerStartTime := none } now =
              Except.error e := heq
          exact Except.noConfusion (hcomplete.symm.trans heq')
        next evC heq =>
          have heq' : AuctionEvent.completeAuction
              { ev.updatePlayerSold wb.amount with
                currentPlayerId := none, currentPlayerStartTime := none } now =
              Except.ok evC := heq
          obtain rfl := Except.ok.inj (heq'.symm.trans hcomplete)
          rfl
      next hs =>
        exact absurd hAS (show ¬ (decide (ev.players.length > 0) &&
          ev.players.all (fun q => (soldPlayerIds w ev.id).contains q)) = true from hs)
    · rw [if_neg hAS]
      split
      next hs =>
        exact absurd (show (decide (ev.players.length > 0) &&
          ev.players.all (fun q => (soldPlayerIds w ev.id).contains q)) = true from hs) hAS
      next hs => rfl
  · have hcontf : team.players.contains pl.id = false := Bool.eq_false_iff.mpr hcont
    have hval : teamValidators (teamPreSave
        { team with players := team.players ++ [pl.id] }) = true := by
      unfold teamValidators teamPreSave
      simp only [Bool.and_eq_true, decide_eq_true_eq]
      exact ⟨⟨htb, hts⟩, htsb⟩
    have hsave : saveTeam { team with players := team.players ++ [pl.id] } =
        Except.ok (teamPreSave { team with players := team.players ++ [pl.id] }) := by
      unfold saveTeam
      rw [if_pos hval]
    refine soldFinalize_conclusions w ev pl wb team teb now
      (upsertBy Team.id w.teams (teamPreSave { team with players := team.players ++ [pl.id] }))
      _ hev hlive hteb ?_
    have h6 := findEvent_soldWorld w ev wb
      (upsertBy Player.id w.players
        { pl with soldPrice := some wb.amount, currentPrice := some pl.basePrice })
      (upsertBy Team.id w.teams (teamPreSave { team with players := team.players ++ [pl.id] }))
      (updateTeamEventBudgetStore w.teamEventBudgets
        { teb with spent := teb.spent + wb.amount
                   remainingBudget := teb.budget - (teb.spent + wb.amount) })
      hev
    unfold timerCallback timerCallbackSoldBranch
    rw [hev]
    simp only [hcur, ne_eq, not_true_eq_false, if_false, if_true, hbid, hpl, hav, hauto,
      hteam, hms, World.savePlayerDoc, World.saveTeamDoc, hgo, hap, hcontf,
      Bool.not_false, hsave]
    simp only [hav] at h6
    simp only [h6]
    by_cases hAS : (decide (ev.players.length > 0) &&
        ev.players.all (fun q => (soldPlayerIds w ev.id).contains q)) = true
    · rw [if_pos hAS]
      split
      next hs =>
        split
        next e heq =>
          have heq' : AuctionEvent.completeAuction
              { ev.updatePlayerSold wb.amount with
                currentPlayerId := none, currentPlayerStartTime := none } now =
              Except.error e := heq
          exact Except.noConfusion (hcomplete.symm.trans heq')
        next evC heq =>
          have heq' : AuctionEvent.completeAuction
              { ev.updatePlayerSold wb.amount with
                currentPlayerId := none, currentPlayerStartTime := none } now =
              Except.ok evC := heq
          obtain rfl := Except.ok.inj (heq'.symm.trans hcomplete)
          rfl
      next hs =>
        exact absurd hAS (show ¬ (decide (ev.players.length > 0) &&
          ev.players.all (fun q => (soldPlayerIds w ev.id).contains q)) = true from hs)
    · rw [if_neg hAS]
      split
      next hs =>
        exact absurd (show (decide (ev.players.length > 0) &&
          ev.players.all (fun q => (soldPlayerIds w ev.id).contains q)) = true from hs) hAS
      next hs => rfl

/-- A concrete auto-mode world for the sold-finalization path: one live
event with a single player (id 2) on the block, one team (id 3) whose
winning bid of 25 stands, and a per-event budget row with 100 remaining. -/
def soldEvent : AuctionEvent :=
  { id := 1, status := .live, players := [2],
    currentPlayerId := some 2, currentPlayerStartTime := some 50,
    settings := { startingBudget := 100 } }

def soldPlayerDoc : Player :=
  { id := 2, role := .batsman, basePrice := 20, status := .available }

def soldTeamDoc : Team := { id := 3 }

def soldBidDoc : Bid :=
  { id := 7, auctionEventId := 1, playerId := 2, teamId := 3, bidderId := 9,
    amount := 25, status := .winning, isWinningBid := true, bidTime := 60 }

def soldTebDoc : TeamEventBudget :=
  { teamId := 3, auctionEventId := 1, budget := 100, spent := 0, remainingBudget := 100 }

def soldWorld : World :=
  { events := [soldEvent], players := [soldPlayerDoc], teams := [soldTeamDoc],
    bids := [soldBidDoc], teamEventBudgets := [soldTebDoc] }

/-- Witness for C3 at `soldWorld` (the single player sells, so the
completion branch is exercised). -/
theorem timerCallback_autoMode_sold_finalizes_witness :
    (∃ teb'', findTeamEventBudget
        (timerCallback soldWorld 1 2 100).1.teamEventBudgets soldTeamDoc.id 1 =
        some teb'' ∧
      teb''.budget = soldTebDoc.budget ∧
      teb''.spent = soldTebDoc.spent + soldBidDoc.amount ∧
      teb''.remainingBudget = soldTebDoc.budget - (soldTebDoc.spent + soldBidDoc.amount)) ∧
    (∃ ev', findEvent (timerCallback soldWorld 1 2 100).1 1 = some ev' ∧
      ev'.stats.playersSold = soldEvent.stats.playersSold + 1 ∧
      ev'.stats.totalAmountSpent = soldEvent.stats.totalAmountSpent + soldBidDoc.amount ∧
      ev'.currentPlayerId = none ∧ ev'.currentPlayerStartTime = none ∧
      ev'.status = (if (decide (soldEvent.players.length > 0) &&
          soldEvent.players.all (fun q => (soldPlayerIds soldWorld 1).contains q)) = true then
          EventStatus.completed else EventStatus.live)) ∧
    ((decide (soldEvent.players.length > 0) &&
        soldEvent.players.all (fun q => (soldPlayerIds soldWorld 1).contains q)) = true →
      ∃ fx, (timerCallback soldWorld 1 2 100).2 = fx ++ [Effect.auctionEnded 1]) ∧
    ((decide (soldEvent.players.length > 0) &&
        soldEvent.players.all (fun q => (soldPlayerIds soldWorld 1).contains q)) = false →
      ∃ wS fx, timerCallback soldWorld 1 2 100 =
          ((autoMoveToNextPlayer wS 1).1, fx ++ (autoMoveToNextPlayer wS 1).2) ∧
        findEvent wS 1 = some { soldEvent.updatePlayerSold soldBidDoc.amount with
          currentPlayerId := none, currentPlayerStartTime := none }) :=
  timerCallback_autoMode_sold_finalizes soldWorld 1 2 100
    soldEvent soldPlayerDoc soldBidDoc soldTeamDoc soldTebDoc
    (by decide) (by decide) (by decide) (by decide) (by decide) (by decide)
    (by decide) (by decide) (by decide) (by decide) (by decide) (by decide)
    (by decide) (by decide) (by decide) (by decide) (by decide)


lemma length_filter_key_le_one {α : Type} (key : α → Nat) (k : Nat) :
    ∀ l : List α, (l.map key).Nodup → (l.filter (fun x => key x == k)).length ≤ 1 := by
  intro l
  induction l with
  | nil => intro _; simp
  | cons a t ih =>
    intro h
    rw [List.map_cons, List.nodup_cons] at h
    rw [List.filter_cons]
    by_cases ha : (key a == k) = true
    · rw [if_pos ha]
      have ht : t.filter (fun x => key x == k) = [] := by
        rw [List.filter_eq_nil_iff]
        intro x hx hpx
        have hxk : key x = k := by simpa using hpx
        have hak : key a = k := by simpa using ha
        exact h.1 (List.mem_map.mpr ⟨x, hx, by rw [hxk, hak]⟩)
      rw [ht]
      simp
    · rw [if_neg ha]
      exact ih h.2

lemma isWinningFor_eq (e p : Nat) (b : Bid) (he : b.auctionEventId = e)
    (hp : b.playerId = p) (hw : b.isWinningBid = true) : isWinningFor e p b = true := by
  unfold isWinningFor
  simp [he, hp, hw]

lemma isWinningFor_elim (e p : Nat) (b : Bid) (h : isWinningFor e p b = true) :
    b.auctionEventId = e ∧ b.playerId = p ∧ b.isWinningBid = true := by
  unfold isWinningFor at h
  simp only [Bool.and_eq_true, beq_iff_eq] at h
  exact ⟨h.1.1, h.1.2, h.2⟩

lemma winningConflict_false_elim (store : List Bid) (c : Bid)
    (hc : winningConflict store c = false) (hw : c.isWinningBid = true) :
    ∀ x ∈ store, ¬ (x.id ≠ c.id ∧ x.auctionEventId = c.auctionEventId ∧
      x.playerId = c.playerId ∧ x.isWinningBid = true) := by
  intro x hx hcontra
  unfold winningConflict at hc
  rw [hw, Bool.true_and] at hc
  have hall := List.any_eq_false.mp hc x hx
  obtain ⟨h1, h2, h3, h4⟩ := hcontra
  apply hall
  simp only [Bool.and_eq_true, bne_iff_ne, ne_eq, beq_iff_eq]
  exact ⟨⟨⟨h1, h2⟩, h3⟩, h4⟩

/-- Inserting a bid through the unique partial index keeps the one-winner
invariant and `_id` uniqueness. -/
lemma upsert_preserves (store : List Bid) (c : Bid)
    (hn : bidIdsNodup store) (h1 : atMostOneWinning store)
    (hc : winningConflict store c = false) :
    bidIdsNodup (upsertBy Bid.id store c) ∧ atMostOneWinning (upsertBy Bid.id store c) := by
  unfold upsertBy
  by_cases hany : store.any (fun x => x.id == c.id) = true
  · rw [if_pos hany]
    constructor
    · unfold bidIdsNodup
      rw [List.map_map]
      have hmc : store.map (Bid.id ∘ fun x => if x.id == c.id then c else x) =
          store.map Bid.id := by
        apply List.map_congr_left
        intro x _
        by_cases hbx : (x.id == c.id) = true
        · show Bid.id (if x.id == c.id then c else x) = x.id
          rw [if_pos hbx]
          exact (beq_iff_eq.mp hbx).symm
        · show Bid.id (if x.id == c.id then c else x) = x.id
          rw [if_neg hbx]
      rw [hmc]
      exact hn
    · intro e p
      unfold countWinning
      rw [List.filter_map, List.length_map]
      by_cases hcw : isWinningFor e p c = true
      · obtain ⟨he, hp, hw⟩ := isWinningFor_elim e p c hcw
        have hcong : store.filter
            ((isWinningFor e p) ∘ fun x => if x.id == c.id then c else x) =
            store.filter (fun x => x.id == c.id) := by
          apply List.filter_congr
          intro x hx
          by_cases hbx : (x.id == c.id) = true
          · show isWinningFor e p (if x.id == c.id then c else x) = (x.id == c.id)
            rw [if_pos hbx, hbx, hcw]
          · have hbxf : (x.id == c.id) = false := Bool.eq_false_iff.mpr hbx
            show isWinningFor e p (if x.id == c.id then c else x) = (x.id == c.id)
            rw [if_neg hbx, hbxf]
            rcases hq : isWinningFor e p x with _ | _
            · rfl
            · obtain ⟨he', hp', hw'⟩ := isWinningFor_elim e p x hq
              exact absurd ⟨fun hid => hbx (by simp [hid]), by rw [he', he],
                by rw [hp', hp], hw'⟩ (winningConflict_false_elim store c hc hw x hx)
        rw [hcong]
        exact length_filter_key_le_one Bid.id c.id store hn
      · have hmono : (store.filter
            ((isWinningFor e p) ∘ fun x => if x.id == c.id then c else x)).length ≤
            (store.filter (isWinningFor e p)).length := by
          rw [← List.countP_eq_length_filter, ← List.countP_eq_length_filter]
          apply List.countP_mono_left
          intro x _ hpx
          by_cases hbx : (x.id == c.id) = true
          · rw [Function.comp_apply, if_pos hbx] at hpx
            exact absurd hpx hcw
          · rw [Function.comp_apply, if_neg hbx] at hpx
            exact hpx
        exact le_trans hmono (h1 e p)
  · rw [if_neg hany]
    constructor
    · unfold bidIdsNodup
      rw [List.map_append]
      refine List.Nodup.append hn (by simp) ?_
      intro x hx hx2
      simp only [List.map_cons, List.map_nil, List.mem_singleton] at hx2
      subst hx2
      obtain ⟨y, hy, hyid⟩ := List.mem_map.mp hx
      exact hany (List.any_eq_true.mpr ⟨y, hy, by simp [hyid]⟩)
    · intro e p
      unfold countWinning
      rw [List.filter_append, List.length_append]
      by_cases hcw : isWinningFor e p c = true
      · obtain ⟨he, hp, hw⟩ := isWinningFor_elim e p c hcw
        have hz : store.filter (isWinningFor e p) = [] := by
          rw [List.filter_eq_nil_iff]
          intro x hx hpx
          obtain ⟨he', hp', hw'⟩ := isWinningFor_elim e p x hpx
          refine winningConflict_false_elim store c hc hw x hx
            ⟨?_, by rw [he', he], by rw [hp', hp], hw'⟩
          intro hid
          exact hany (List.any_eq_true.mpr ⟨x, hx, by simp [hid]⟩)
        rw [hz]
        simp [hcw]
      · have hz : List.filter (isWinningFor e p) [c] = [] := by
          simp only [List.filter_eq_nil_iff, List.mem_singleton]
          intro x hx
          subst hx
          simp [Bool.not_eq_true] at hcw ⊢
          exact hcw
        rw [hz]
        simpa using h1 e p

/-- `bid.save()` keeps the §3 invariant and `_id` uniqueness. -/
lemma saveBid_preserves (store : List Bid) (b : Bid) (store' : List Bid)
    (hn : bidIdsNodup store) (h1 : atMostOneWinning store)
    (h : saveBid store b = .ok store') :
    bidIdsNodup store' ∧ atMostOneWinning store' := by
  unfold saveBid at h
  by_cases hv : ¬ bidValidators (bidPreSave b) = true
  · rw [if_pos hv] at h
    exact Except.noConfusion h
  rw [if_neg hv] at h
  by_cases hcf : winningConflict store (bidPreSave b) = true
  · rw [if_pos hcf] at h
    exact Except.noConfusion h
  rw [if_neg hcf] at h
  obtain rfl := Except.ok.inj h
  exact upsert_preserves store (bidPreSave b) hn h1 (Bool.eq_false_iff.mpr hcf)

lemma demote_preserves (store : List Bid) (b : Bid) (now : Nat)
    (hn : bidIdsNodup store) (h1 : atMostOneWinning store) :
    bidIdsNodup (demoteOtherWinners store b now) ∧
    atMostOneWinning (demoteOtherWinners store b now) := by
  constructor
  · unfold bidIdsNodup demoteOtherWinners
    rw [List.map_map]
    have hmc : store.map (Bid.id ∘ fun c =>
        if c.auctionEventId == b.auctionEventId && c.playerId == b.playerId &&
           c.isWinningBid && c.id != b.id then
          { c with isWinningBid := false, status := .outbid, outbidAt := some now }
        else c) = store.map Bid.id := by
      apply List.map_congr_left
      intro x _
      show Bid.id (if _ then _ else x) = x.id
      split_ifs <;> rfl
    rw [hmc]
    exact hn
  · intro e p
    unfold countWinning demoteOtherWinners
    rw [List.filter_map, List.length_map]
    have hmono : (store.filter ((isWinningFor e p) ∘ fun c =>
        if c.auctionEventId == b.auctionEventId && c.playerId == b.playerId &&
           c.isWinningBid && c.id != b.id then
          { c with isWinningBid := false, status := .outbid, outbidAt := some now }
        else c)).length ≤ (store.filter (isWinningFor e p)).length := by
      rw [← List.countP_eq_length_filter, ← List.countP_eq_length_filter]
      apply List.countP_mono_left
      intro x _ hpx
      rw [Function.comp_apply] at hpx
      by_cases hcond : (x.auctionEventId == b.auctionEventId && x.playerId == b.playerId &&
          x.isWinningBid && x.id != b.id) = true
      · rw [if_pos hcond] at hpx
        obtain ⟨_, _, hw⟩ := isWinningFor_elim e p _ hpx
        exact absurd hw (by simp)
      · rw [if_neg hcond] at hpx
        exact hpx
    exact le_trans hmono (h1 e p)

lemma markAsWinning_preserves (store : List Bid) (b : Bid) (now : Nat)
    (b'' : Bid) (store2 : List Bid)
    (hn : bidIdsNodup store) (h1 : atMostOneWinning store)
    (h : markAsWinning store b now = .ok (b'', store2)) :
    bidIdsNodup store2 ∧ atMostOneWinning store2 := by
  unfold markAsWinning at h
  rcases hs : saveBid (demoteOtherWinners store b now)
      { b with isWinningBid := true, status := .winning } with e | st2
  · simp only [hs] at h
    exact Except.noConfusion h
  · simp only [hs, Except.ok.injEq, Prod.mk.injEq] at h
    obtain ⟨_, h2⟩ := h
    subst h2
    have hd := demote_preserves store b now hn h1
    exact saveBid_preserves _ _ _ hd.1 hd.2 hs

lemma markAsRejected_preserves (store : List Bid) (b : Bid) (reason : String)
    (b'' : Bid) (store2 : List Bid)
    (hn : bidIdsNodup store) (h1 : atMostOneWinning store)
    (h : markAsRejected store b reason = .ok (b'', store2)) :
    bidIdsNodup store2 ∧ atMostOneWinning store2 := by
  unfold markAsRejected at h
  rcases hs : saveBid store
      { b with status := .rejected, rejectionReason := some reason, isWinningBid := false }
      with e | st2
  · simp only [hs] at h
    exact Except.noConfusion h
  · simp only [hs, Except.ok.injEq, Prod.mk.injEq] at h
    obtain ⟨_, h2⟩ := h
    subst h2
    exact saveBid_preserves _ _ _ hn h1 hs

lemma placeBidWrite_preserves (bids : List Bid) (cwb : Option Bid) (b : Bid) (now : Nat)
    (bid' : Bid) (bids' : List Bid)
    (hn : bidIdsNodup bids) (h1 : atMostOneWinning bids)
    (h : placeBidWrite bids cwb b now = .ok (bid', bids')) :
    bidIdsNodup bids' ∧ atMostOneWinning bids' := by
  unfold placeBidWrite at h
  rcases cwb with _ | prev
  · rcases hsb : saveBid bids b with e | bids2
    · simp only [hsb] at h
      exact Except.noConfusion h
    · simp only [hsb] at h
      have hs := saveBid_preserves bids b bids2 hn h1 hsb
      exact markAsWinning_preserves bids2 b now bid' bids' hs.1 hs.2 h
  · rcases hmr : markAsRejected bids prev "Outbid by higher bid" with e | pr
    · simp only [hmr] at h
      exact Except.noConfusion h
    · obtain ⟨pb, bids1⟩ := pr
      simp only [hmr] at h
      have hr := markAsRejected_preserves bids prev "Outbid by higher bid" pb bids1 hn h1 hmr
      rcases hsb : saveBid bids1 b with e | bids2
      · simp only [hsb] at h
        exact Except.noConfusion h
      · simp only [hsb] at h
        have hs := saveBid_preserves bids1 b bids2 hr.1 hr.2 hsb
        exact markAsWinning_preserves bids2 b now bid' bids' hs.1 hs.2 h

lemma placeBid_bids_shape (w : World) (userId : Nat) (userRole : UserRole)
    (eventId playerId : Nat) (amount : Int) (newBidId now : Nat)
    (w' : World) (fx : List Effect)
    (h : placeBid w userId userRole eventId playerId amount newBidId now = .ok (w', fx)) :
    ∃ cwb b bid bids2, placeBidWrite w.bids cwb b now = .ok (bid, bids2) ∧
      w'.bids = bids2 := by
  unfold placeBid at h
  by_cases hrole : userRole ≠ UserRole.teamOwner
  · rw [if_pos hrole] at h
    exact Except.noConfusion h
  rw [if_neg hrole] at h
  by_cases hfal : eventId = 0 ∨ playerId = 0 ∨ amount = 0
  · rw [if_pos hfal] at h
    exact Except.noConfusion h
  rw [if_neg hfal] at h
  rcases hfe : findEvent w eventId with _ | event
  · simp only [hfe] at h
    exact Except.noConfusion h
  simp only [hfe] at h
  by_cases hst : event.status ≠ EventStatus.live
  · rw [if_pos hst] at h
    exact Except.noConfusion h
  rw [if_neg hst] at h
  by_cases hcp : event.currentPlayerId ≠ some playerId
  · rw [if_pos hcp] at h
    exact Except.noConfusion h
  rw [if_neg hcp] at h
  rcases hfp : findPlayer w playerId with _ | player
  · simp only [hfp] at h
    exact Except.noConfusion h
  simp only [hfp] at h
  rcases hfu : findUser w userId with _ | user
  · simp only [hfu] at h
    exact Except.noConfusion h
  simp only [hfu] at h
  rcases htid : user.teamId with _ | tid
  · simp only [htid] at h
    exact Except.noConfusion h
  simp only [htid] at h
  rcases hft : findTeam w tid with _ | team
  · simp only [hft] at h
    exact Except.noConfusion h
  simp only [hft] at h
  rcases hgoc : TeamEventBudget.getOrCreate w.teamEventBudgets team.id eventId
      (if event.settings.startingBudget = 0 then 10000
       else event.settings.startingBudget) with e | pr
  · simp only [hgoc] at h
    exact Except.noConfusion h
  obtain ⟨teamEventBudget, tebStore⟩ := pr
  simp only [hgoc] at h
  rcases hcwb : getWinningBid w.bids eventId playerId with _ | prev <;>
    simp only [hcwb] at h
  · rcases hcan : canPlaceBid amount player.basePrice teamEventBudget.remainingBudget
        team.players.length player.basePrice true with _ | _
    · simp only [hcan] at h
      rcases hwrt : placeBidWrite w.bids none
          { id := newBidId, auctionEventId := eventId, playerId := playerId,
            teamId := team.id, bidderId := userId, amount := amount,
            status := .accepted, isWinningBid := true, rejectionReason := none,
            bidTime := now, outbidAt := none } now with e | pr2
      · simp only [hwrt] at h
        exact Except.noConfusion h
      · obtain ⟨bid, bids2⟩ := pr2
        simp only [hwrt, Except.ok.injEq, Prod.mk.injEq] at h
        obtain ⟨h1', h2'⟩ := h
        refine ⟨_, _, bid, bids2, hwrt, ?_⟩
        rw [← h1']
        rfl
    · simp only [hcan] at h
      exact Except.noConfusion h
  · rcases hcan : canPlaceBid amount prev.amount teamEventBudget.remainingBudget
        team.players.length prev.amount true with _ | _
    · simp only [hcan] at h
      rcases hwrt : placeBidWrite w.bids (some prev)
          { id := newBidId, auctionEventId := eventId, playerId := playerId,
            teamId := team.id, bidderId := userId, amount := amount,
            status := .accepted, isWinningBid := true, rejectionReason := none,
            bidTime := now, outbidAt := none } now with e | pr2
      · simp only [hwrt] at h
        exact Except.noConfusion h
      · obtain ⟨bid, bids2⟩ := pr2
        simp only [hwrt, Except.ok.injEq, Prod.mk.injEq] at h
        obtain ⟨h1', h2'⟩ := h
        refine ⟨_, _, bid, bids2, hwrt, ?_⟩
        rw [← h1']
        rfl
    · simp only [hcan] at h
      exact Except.noConfusion h

/-- Saving a winning bid while a different document for the same
(event, player) pair is already marked winning always fails on the unique
partial index with a duplicate-key error. -/
lemma saveBid_conflict_error (store : List Bid) (b c : Bid)
    (hmem : c ∈ store) (hne : c.id ≠ b.id)
    (he : c.auctionEventId = b.auctionEventId) (hp : c.playerId = b.playerId)
    (hcw : c.isWinningBid = true) (hbw : b.isWinningBid = true) (hamt : 0 < b.amount) :
    saveBid store b =
      .error (.mongoDuplicateKey ["auctionEventId", "playerId", "isWinningBid"]) := by
  have hpre : bidPreSave b = { b with status := .winning } := by
    unfold bidPreSave
    rw [if_pos hbw]
  have hv : bidValidators { b with status := .winning } = true := by
    unfold bidValidators
    simp only [Bool.and_eq_true, decide_eq_true_eq]
    exact ⟨le_of_lt hamt, hamt⟩
  have hcf : winningConflict store { b with status := .winning } = true := by
    unfold winningConflict
    simp only [Bool.and_eq_true]
    refine ⟨hbw, List.any_eq_true.mpr ⟨c, hmem, ?_⟩⟩
    simp only [Bool.and_eq_true, bne_iff_ne, ne_eq, beq_iff_eq]
    exact ⟨⟨⟨hne, he⟩, hp⟩, hcw⟩
  unfold saveBid
  rw [hpre]
  rw [if_neg (by simp [hv])]
  rw [if_pos hcf]

/-- C1: for every (event, player) pair at most one Bid document is marked
`isWinningBid`, and the bid `_id`s stay unique: the invariant is preserved
by `save()` on a bid, by `markAsWinning` (which demotes prior winners), and
by the whole `placeBid` write sequence; and independently of application
logic, the unique partial index on (auctionEventId, playerId, isWinningBid)
refuses the write of a winning bid whenever a different document for the
same pair is already marked winning. -/
theorem winning_bid_uniqueness :
    (∀ store b store', bidIdsNodup store → atMostOneWinning store →
      saveBid store b = .ok store' → bidIdsNodup store' ∧ atMostOneWinning store') ∧
    (∀ store b now b'' store2, bidIdsNodup store → atMostOneWinning store →
      markAsWinning store b now = .ok (b'', store2) →
      bidIdsNodup store2 ∧ atMostOneWinning store2) ∧
    (∀ w userId userRole eventId playerId amount newBidId now w' fx,
      bidIdsNodup w.bids → atMostOneWinning w.bids →
      placeBid w userId userRole eventId playerId amount newBidId now = .ok (w', fx) →
      bidIdsNodup w'.bids ∧ atMostOneWinning w'.bids) ∧
    (∀ store b c, c ∈ store → c.id ≠ b.id →
      c.auctionEventId = b.auctionEventId → c.playerId = b.playerId →
      c.isWinningBid = true → b.isWinningBid = true → 0 < b.amount →
      saveBid store b =
        .error (.mongoDuplicateKey ["auctionEventId", "playerId", "isWinningBid"])) := by
  refine ⟨saveBid_preserves, markAsWinning_preserves, ?_, ?_⟩
  · intro w userId userRole eventId playerId amount newBidId now w' fx hn h1 h
    obtain ⟨cwb, bdoc, bid, bids2, hwrt, hb⟩ :=
      placeBid_bids_shape w userId userRole eventId playerId amount newBidId now w' fx h
    rw [hb]
    exact placeBidWrite_preserves w.bids cwb bdoc now bid bids2 hn h1 hwrt
  · intro store b c hmem hne he hp hcw hbw hamt
    exact saveBid_conflict_error store b c hmem hne he hp hcw hbw hamt

/-- Concrete bids for the uniqueness witness: a stored winning bid (id 7)
on pair (event 1, player 2), and a fresh bid (id 8) on the same pair. -/
def c1Winning : Bid :=
  { id := 7, auctionEventId := 1, playerId := 2, teamId := 3, bidderId := 9,
    amount := 25, status := .winning, isWinningBid := true, bidTime := 60 }

def c1Store : List Bid := [c1Winning]

def c1NewBid : Bid :=
  { id := 8, auctionEventId := 1, playerId := 2, teamId := 4, bidderId := 10,
    amount := 30, status := .accepted, isWinningBid := false, bidTime := 70 }

def c1ConflictBid : Bid :=
  { id := 8, auctionEventId := 1, playerId := 2, teamId := 4, bidderId := 10,
    amount := 30, status := .accepted, isWinningBid := true, bidTime := 70 }

def c1WinningOutbid : Bid :=
  { c1Winning with isWinningBid := false, status := .outbid, outbidAt := some 100 }

def c1NewBidWinning : Bid :=
  { c1NewBid with isWinningBid := true, status := .winning }

def c1World : World :=
  { events := [{ id := 1, status := .live, players := [2],
                 currentPlayerId := some 2, currentPlayerStartTime := some 50,
                 settings := { startingBudget := 100 } }],
    players := [{ id := 2, role := .batsman, basePrice := 20, status := .available }],
    teams := [{ id := 3 }],
    users := [{ id := 9, teamId := some 3 }],
    bids := [c1Winning],
    teamEventBudgets := [{ teamId := 3, auctionEventId := 1, budget := 100,
                           spent := 0, remainingBudget := 100 }] }

def c1Placed : World :=
  match placeBid c1World 9 .teamOwner 1 2 30 8 100 with
  | .ok (w', _) => w'
  | .error _ => {}

def c1PlacedFx : List Effect :=
  match placeBid c1World 9 .teamOwner 1 2 30 8 100 with
  | .ok (_, fx) => fx
  | .error _ => []

/-- Witness for C1 at the concrete bids above. -/
theorem winning_bid_uniqueness_witness :
    (bidIdsNodup [c1Winning, c1NewBid] ∧ atMostOneWinning [c1Winning, c1NewBid]) ∧
    (bidIdsNodup [c1WinningOutbid, c1NewBidWinning] ∧
      atMostOneWinning [c1WinningOutbid, c1NewBidWinning]) ∧
    (bidIdsNodup c1Placed.bids ∧ atMostOneWinning c1Placed.bids) ∧
    saveBid c1Store c1ConflictBid =
      .error (.mongoDuplicateKey ["auctionEventId", "playerId", "isWinningBid"]) :=
  ⟨winning_bid_uniqueness.1 c1Store c1NewBid [c1Winning, c1NewBid]
     (by decide : (c1Store.map Bid.id).Nodup)
     (fun e p => List.length_filter_le _ _) (by decide),
   winning_bid_uniqueness.2.1 c1Store c1NewBid 100 c1NewBidWinning
     [c1WinningOutbid, c1NewBidWinning] (by decide : (c1Store.map Bid.id).Nodup)
     (fun e p => List.length_filter_le _ _) (by decide),
   winning_bid_uniqueness.2.2.1 c1World 9 .teamOwner 1 2 30 8 100 c1Placed c1PlacedFx
     (by decide : (c1World.bids.map Bid.id).Nodup)
     (fun e p => List.length_filter_le _ _) (by decide),
   winning_bid_uniqueness.2.2.2 c1Store c1ConflictBid c1Winning (by decide) (by decide)
     rfl rfl rfl rfl (by decide)⟩


def charListStartsWith : List Char → List Char → Bool
  | [], _ => true
  | _ :: _, [] => false
  | a :: s, b :: t => a == b && charListStartsWith s t

def charListHasSub (pat : List Char) : List Char → Bool
  | [] => pat.isEmpty
  | c :: rest => charListStartsWith pat (c :: rest) || charListHasSub pat rest

/-- Modelled from the spec: the spec requires the losing side of a bid race
to fail with a `StaleBid` error; an HTTP response counts as such an error
only if its message mentions "StaleBid". -/
def mentionsStaleBid (r : ErrorResponse) : Bool :=
  charListHasSub "StaleBid".data r.message.data

/-- A live auction world with no bids yet, for the bid-race scenario. -/
def c2World : World :=
  { events := [{ id := 1, status := .live, players := [2],
                 currentPlayerId := some 2, currentPlayerStartTime := some 50,
                 settings := { startingBudget := 100 } }],
    players := [{ id := 2, role := .batsman, basePrice := 20, status := .available }],
    teams := [{ id := 3 }],
    users := [{ id := 9, teamId := some 3 }],
    bids := [],
    teamEventBudgets := [{ teamId := 3, auctionEventId := 1, budget := 100,
                           spent := 0, remainingBudget := 100 }] }

/-- The state after writer A's successful `placeBid`. -/
def c2Placed : World :=
  match placeBid c2World 9 .teamOwner 1 2 25 10 100 with
  | .ok (w', _) => w'
  | .error _ => {}

def c2PlacedFx : List Effect :=
  match placeBid c2World 9 .teamOwner 1 2 25 10 100 with
  | .ok (_, fx) => fx
  | .error _ => []

/-- Writer A's winning bid document as stored. -/
def c2WinningA : Bid :=
  { id := 10, auctionEventId := 1, playerId := 2, teamId := 3, bidderId := 9,
    amount := 25, status := .winning, isWinningBid := true, bidTime := 100 }

/-- Writer B's bid, prepared against the stale observation that no winning
bid existed. -/
def c2BidB : Bid :=
  { id := 11, auctionEventId := 1, playerId := 2, teamId := 4, bidderId := 12,
    amount := 30, status := .accepted, isWinningBid := true, bidTime := 101 }

/-- C2 counterexample: writers A and B race on the same player with B's
observed top bid stale (B read the store before A's bid landed).  A's
`placeBid` succeeds; B's write sequence then fails on the unique partial
index with the generic Mongo duplicate-key error whose `keyPattern` is the
index's `{ auctionEventId, playerId, isWinningBid }`.  The global error
middleware reports `Object.keys(err.keyPattern)[0]`, so the caller sees
HTTP 409 "auctionEventId already exists" — an error response that never
mentions StaleBid, because no StaleBid error exists anywhere in the code. -/
theorem placeBid_race_staleBid_counterexample :
    placeBid c2World 9 .teamOwner 1 2 25 10 100 = .ok (c2Placed, c2PlacedFx) ∧
    placeBidWrite c2Placed.bids none c2BidB 101 =
      .error (.mongoDuplicateKey ["auctionEventId", "playerId", "isWinningBid"]) ∧
    errorHandler (.mongoDuplicateKey ["auctionEventId", "playerId", "isWinningBid"]) =
      ⟨409, "auctionEventId already exists"⟩ ∧
    mentionsStaleBid (errorHandler
      (.mongoDuplicateKey ["auctionEventId", "playerId", "isWinningBid"])) = false :=
  ⟨by decide, by decide, rfl, by decide⟩

/-- C2 (amended): under a race, the losing submission is not silently
dropped — whenever a second writer's observed top bid is stale (it read
none, but a different winning bid for the pair has meanwhile landed), its
write sequence fails with the generic Mongo duplicate-key error from the
unique partial index on `{ auctionEventId, playerId, isWinningBid }`;
`placeBid` has no handler for code 11000, so the global error middleware
surfaces it as HTTP 409 "auctionEventId already exists" (the first key of
the violated index's key pattern), not as any StaleBid error (no such
error exists in the code). -/
theorem placeBid_race_surfaces_duplicate_key
    (bids : List Bid) (c b : Bid) (now : Nat)
    (hmem : c ∈ bids) (hne : c.id ≠ b.id)
    (he : c.auctionEventId = b.auctionEventId) (hp : c.playerId = b.playerId)
    (hcw : c.isWinningBid = true) (hbw : b.isWinningBid = true) (hamt : 0 < b.amount) :
    placeBidWrite bids none b now =
      .error (.mongoDuplicateKey ["auctionEventId", "playerId", "isWinningBid"]) ∧
    errorHandler (.mongoDuplicateKey ["auctionEventId", "playerId", "isWinningBid"]) =
      ⟨409, "auctionEventId already exists"⟩ ∧
    mentionsStaleBid (errorHandler
      (.mongoDuplicateKey ["auctionEventId", "playerId", "isWinningBid"])) = false := by
  refine ⟨?_, rfl, by decide⟩
  have hsb := saveBid_conflict_error bids b c hmem hne he hp hcw hbw hamt
  unfold placeBidWrite
  simp only [hsb]

/-- Witness for the amended C2 at the concrete race store. -/
theorem placeBid_race_surfaces_duplicate_key_witness :
    placeBidWrite [c2WinningA] none c2BidB 101 =
      .error (.mongoDuplicateKey ["auctionEventId", "playerId", "isWinningBid"]) ∧
    errorHandler (.mongoDuplicateKey ["auctionEventId", "playerId", "isWinningBid"]) =
      ⟨409, "auctionEventId already exists"⟩ ∧
    mentionsStaleBid (errorHandler
      (.mongoDuplicateKey ["auctionEventId", "playerId", "isWinningBid"])) = false :=
  placeBid_race_surfaces_duplicate_key [c2WinningA] c2WinningA c2BidB 101
    (by decide) (by decide) rfl rfl rfl rfl (by decide)

end CricketAuction
